import Mathlib

/-!
Verification of the RadioModTx core (AMR repository) against its
natural-language specification.  The C++ sources are shallowly embedded:
float/double values become rationals, std::string becomes String or
List Char, std::vector becomes List, std::map iteration follows key order,
and every loop is translated to structural recursion or a fold.  Failure
paths (thrown exceptions of .at, parse failures) are made explicit with
Option or boolean status fields, exactly where the source has them.
-/

set_option maxHeartbeats 4000000
set_option maxRecDepth 10000

/-- The ModulationName enum from Modulation.h, constructors in declaration
order, so NAME_UNKNOWN is the smallest value. -/
inductive ModulationName where
  | NAME_UNKNOWN
  | NAME_AM_SSB
  | NAME_AM_SSB_WC
  | NAME_AM_SSB_SC
  | NAME_AM_DSB
  | NAME_AM_DSB_WC
  | NAME_AM_DSB_SC
  | NAME_AM_USB
  | NAME_AM_LSB
  | NAME_FM
  | NAME_WBFM
  | NAME_PM
  | NAME_16APSK
  | NAME_32APSK
  | NAME_64APSK
  | NAME_128APSK
  | NAME_OOK
  | NAME_4ASK
  | NAME_8ASK
  | NAME_2FSK
  | NAME_4FSK
  | NAME_8FSK
  | NAME_16FSK
  | NAME_GFSK
  | NAME_CPFSK
  | NAME_GMSK
  | NAME_BPSK
  | NAME_QPSK
  | NAME_8PSK
  | NAME_16PSK
  | NAME_32PSK
  | NAME_64PSK
  | NAME_OQPSK
  | NAME_4PAM
  | NAME_8PAM
  | NAME_16PAM
  | NAME_4QAM
  | NAME_8QAM
  | NAME_16QAM
  | NAME_32QAM
  | NAME_64QAM
  | NAME_256QAM
  | NAME_128QAM
  deriving DecidableEq, Repr

/-- The alias table MODULATION_NAME_ALIAS from Modulation.cpp.  The C++
std::map iterates in key (enum) order; the initializer in the source is
already listed in that order, which is preserved here. -/
def MODULATION_NAME_ALIAS : List (ModulationName × List String) := [
  (.NAME_UNKNOWN,   [""]),
  (.NAME_AM_SSB,    ["AM-SSB"]),
  (.NAME_AM_SSB_WC, ["AM-SSB WC"]),
  (.NAME_AM_SSB_SC, ["AM-SSB SC"]),
  (.NAME_AM_DSB,    ["AM-DSB"]),
  (.NAME_AM_DSB_WC, ["AM-DSB WC"]),
  (.NAME_AM_DSB_SC, ["AM-DSB SC"]),
  (.NAME_AM_USB,    ["AM-USB"]),
  (.NAME_AM_LSB,    ["AM-LSB"]),
  (.NAME_FM,        ["FM"]),
  (.NAME_WBFM,      ["WBFM"]),
  (.NAME_PM,        ["PM"]),
  (.NAME_16APSK,    ["16APSK", "APSK16"]),
  (.NAME_32APSK,    ["32APSK", "APSK32"]),
  (.NAME_64APSK,    ["64APSK", "APSK64"]),
  (.NAME_128APSK,   ["128APSK", "APSK128"]),
  (.NAME_OOK,       ["OOK", "2ASK", "ASK2"]),
  (.NAME_4ASK,      ["4ASK", "ASK4"]),
  (.NAME_8ASK,      ["8ASK", "ASK8"]),
  (.NAME_2FSK,      ["2FSK", "FSK2"]),
  (.NAME_4FSK,      ["4FSK", "FSK4"]),
  (.NAME_8FSK,      ["8FSK", "FSK8"]),
  (.NAME_16FSK,     ["16FSK", "FSK16"]),
  (.NAME_GFSK,      ["GFSK"]),
  (.NAME_CPFSK,     ["CPFSK"]),
  (.NAME_GMSK,      ["GMSK"]),
  (.NAME_BPSK,      ["BPSK", "2PSK", "PSK2"]),
  (.NAME_QPSK,      ["QPSK", "4PSK", "PSK4"]),
  (.NAME_8PSK,      ["8PSK", "PSK8"]),
  (.NAME_16PSK,     ["16PSK", "PSK16"]),
  (.NAME_32PSK,     ["32PSK", "PSK32"]),
  (.NAME_64PSK,     ["64PSK", "PSK64"]),
  (.NAME_OQPSK,     ["OQPSK"]),
  (.NAME_4PAM,      ["4PAM", "PAM4"]),
  (.NAME_8PAM,      ["8PAM", "PAM8"]),
  (.NAME_16PAM,     ["16PAM", "PAM16"]),
  (.NAME_4QAM,      ["4QAM", "QAM4"]),
  (.NAME_8QAM,      ["8QAM", "QAM8"]),
  (.NAME_16QAM,     ["16QAM", "QAM16"]),
  (.NAME_32QAM,     ["32QAM", "QAM32"]),
  (.NAME_64QAM,     ["64QAM", "QAM64"]),
  (.NAME_128QAM,    ["128QAM", "QAM128"]),
  (.NAME_256QAM,    ["256QAM", "QAM256"])
]

/-- Scan loop of Modulation::getModulationName: walk the alias table in map
order, skip NAME_UNKNOWN, return the first name one of whose aliases equals
the string exactly (case-sensitive). -/
def getModulationNameScan (s : String) : List (ModulationName × List String) → ModulationName
  | [] => .NAME_UNKNOWN
  | (n, strVec) :: rest =>
      if n = .NAME_UNKNOWN then getModulationNameScan s rest
      else if strVec.any (fun a => a = s) then n
      else getModulationNameScan s rest

/-- Modulation::getModulationName. -/
def getModulationName (s : String) : ModulationName :=
  getModulationNameScan s MODULATION_NAME_ALIAS

/-- Modulation::getModulationString: MODULATION_NAME_ALIAS.at(name).at(0).
Every name is present in the table with a non-empty alias vector, so the
defaults below are never taken. -/
def getModulationString (n : ModulationName) : String :=
  ((MODULATION_NAME_ALIAS.lookup n).getD []).headD ""

/-- Innermost double loop of Modulation::verifyAliasNames over one pair of
alias vectors: for each element of two (in order), the first element of one
equal to it (if any) is written to the duplicate slot and the status is
cleared; the inner break makes later elements of one irrelevant for that
element of two, while later elements of two keep overwriting the slot. -/
def verifyPairScan (one : List String) : List String → Bool × String → Bool × String
  | [], st => st
  | t :: ts, st =>
      match one.find? (fun s => s = t) with
      | some s => verifyPairScan one ts (false, s)
      | none => verifyPairScan one ts st

/-- The mapItTwo loop of Modulation::verifyAliasNames for a fixed mapItOne
vector one: an empty second vector clears the status and breaks out of this
loop; otherwise the pair is scanned and the walk continues. -/
def verifyInnerScan (one : List String) :
    List (ModulationName × List String) → Bool × String → Bool × String
  | [], st => st
  | (_, two) :: rest, st =>
      if two.isEmpty then (false, st.2)
      else verifyInnerScan one rest (verifyPairScan one two st)

/-- The mapItOne loop of Modulation::verifyAliasNames: NAME_UNKNOWN rows are
skipped, an empty alias vector clears the status and breaks out of the whole
loop, and otherwise the row is compared against every later row. -/
def verifyScan : List (ModulationName × List String) → Bool × String → Bool × String
  | [], st => st
  | (n, one) :: rest, st =>
      if n = .NAME_UNKNOWN then verifyScan rest st
      else if one.isEmpty then (false, st.2)
      else verifyScan rest (verifyInnerScan one rest st)

/-- Modulation::verifyAliasNames, parametrized by the table it walks (the
source walks the static MODULATION_NAME_ALIAS).  Returns the status and the
final contents of the aDuplicate out-parameter (initially the empty
string). -/
def verifyAliasNames (table : List (ModulationName × List String)) : Bool × String :=
  verifyScan table (true, "")

/-- Stated from the specification text for claim C9: no alias string appears
in more than one name's alias list (rows pairwise share no alias), and
every alias list is non-empty. -/
def specAliasTableInjective (table : List (ModulationName × List String)) : Prop :=
  (∀ e ∈ table, e.2 ≠ []) ∧
  table.Pairwise (fun p q => ∀ a ∈ p.2, a ∉ q.2)

instance (table : List (ModulationName × List String)) :
    Decidable (specAliasTableInjective table) := by
  unfold specAliasTableInjective
  infer_instance

lemma forall_ne_iff_not_mem (l1 l2 : List String) :
    (∀ t ∈ l2, ∀ s ∈ l1, s ≠ t) ↔ (∀ a ∈ l1, a ∉ l2) := by
  constructor
  · intro h a ha hmem
    exact h a hmem a ha rfl
  · intro h t ht s hs hst
    exact h s hs (hst ▸ ht)

lemma verifyPairScan_fst (one : List String) :
    ∀ (ts : List String) (st : Bool × String),
      (verifyPairScan one ts st).1 = true ↔
        (st.1 = true ∧ ∀ t ∈ ts, ∀ s ∈ one, s ≠ t) := by
  intro ts
  induction ts with
  | nil => intro st; simp [verifyPairScan]
  | cons t ts ih =>
      intro st
      unfold verifyPairScan
      rcases h : one.find? (fun s => s = t) with _ | s
      · have hnot : ∀ s ∈ one, s ≠ t := by
          intro s hs
          have := List.find?_eq_none.mp h s hs
          simpa using this
        rw [ih]
        simp only [List.mem_cons]
        constructor
        · rintro ⟨h1, h2⟩
          refine ⟨h1, ?_⟩
          rintro x (rfl | hx)
          · exact hnot
          · exact h2 x hx
        · rintro ⟨h1, h2⟩
          exact ⟨h1, fun x hx => h2 x (Or.inr hx)⟩
      · have hmem : s ∈ one := List.mem_of_find?_eq_some h
        have hst : s = t := by simpa using List.find?_some h
        rw [ih]
        constructor
        · rintro ⟨h0, -⟩
          exact absurd h0 Bool.false_ne_true
        · rintro ⟨-, h2⟩
          exact absurd hst (h2 t (List.mem_cons_self t ts) s hmem)

lemma verifyInnerScan_fst (one : List String) :
    ∀ (rest : List (ModulationName × List String)) (st : Bool × String),
      (verifyInnerScan one rest st).1 = true ↔
        (st.1 = true ∧ ∀ e ∈ rest, e.2 ≠ [] ∧ ∀ t ∈ e.2, ∀ s ∈ one, s ≠ t) := by
  intro rest
  induction rest with
  | nil => intro st; simp [verifyInnerScan]
  | cons e rest ih =>
      intro st
      obtain ⟨n, two⟩ := e
      unfold verifyInnerScan
      by_cases h2 : two.isEmpty
      · have : two = [] := by simpa [List.isEmpty_iff] using h2
        subst this
        simp
      · have h2ne : two ≠ [] := by simpa [List.isEmpty_iff] using h2
        rw [if_neg h2, ih, verifyPairScan_fst]
        simp only [List.mem_cons]
        constructor
        · rintro ⟨⟨h1, hsc⟩, hrest⟩
          refine ⟨h1, ?_⟩
          rintro x (rfl | hx)
          · exact ⟨h2ne, hsc⟩
          · exact hrest x hx
        · rintro ⟨h1, hall⟩
          exact ⟨⟨h1, (hall (n, two) (Or.inl rfl)).2⟩,
                 fun x hx => hall x (Or.inr hx)⟩

lemma verifyScan_fst :
    ∀ (rest : List (ModulationName × List String)),
      (∀ e ∈ rest, e.1 ≠ ModulationName.NAME_UNKNOWN) →
      ∀ (st : Bool × String),
        (verifyScan rest st).1 = true ↔
          (st.1 = true ∧ (∀ e ∈ rest, e.2 ≠ []) ∧
            rest.Pairwise (fun p q => ∀ a ∈ p.2, a ∉ q.2)) := by
  intro rest
  induction rest with
  | nil => intro _ st; simp [verifyScan]
  | cons e rest ih =>
      intro hnu st
      obtain ⟨n, one⟩ := e
      have hn : n ≠ ModulationName.NAME_UNKNOWN := hnu (n, one) (List.mem_cons_self _ _)
      unfold verifyScan
      rw [if_neg hn]
      by_cases h1 : one.isEmpty
      · have : one = [] := by simpa [List.isEmpty_iff] using h1
        subst this
        simp
      · have h1ne : one ≠ [] := by simpa [List.isEmpty_iff] using h1
        rw [if_neg h1,
            ih (fun x hx => hnu x (List.mem_cons_of_mem _ hx)),
            verifyInnerScan_fst, List.pairwise_cons]
        simp only [List.mem_cons]
        constructor
        · rintro ⟨⟨h0, hdisj⟩, hne, hpw⟩
          refine ⟨h0, ?_, ?_, hpw⟩
          · rintro x (rfl | hx)
            · exact h1ne
            · exact hne x hx
          · intro q hq
            exact (forall_ne_iff_not_mem one q.2).mp (hdisj q hq).2
        · rintro ⟨h0, hne, hdisj, hpw⟩
          refine ⟨⟨h0, ?_⟩, fun x hx => hne x (Or.inr hx), hpw⟩
          intro q hq
          exact ⟨hne q (Or.inr hq), (forall_ne_iff_not_mem one q.2).mpr (hdisj q hq)⟩

/-- C8: for every modulation name n other than NAME_UNKNOWN, the alias list
of n in MODULATION_NAME_ALIAS is non-empty and its first element is the
canonical label returned by getModulationString, and for every alias a in
any name's alias list (NAME_UNKNOWN included), getModulationName a returns
exactly that name. -/
theorem alias_table_canonical_roundtrip :
    (∀ n : ModulationName, n ≠ .NAME_UNKNOWN →
      ((MODULATION_NAME_ALIAS.lookup n).getD []) ≠ [] ∧
      getModulationString n = ((MODULATION_NAME_ALIAS.lookup n).getD []).headD "") ∧
    (∀ p ∈ MODULATION_NAME_ALIAS, ∀ a ∈ p.2, getModulationName a = p.1) := by
  constructor
  · intro n hn
    cases n
    · exact absurd rfl hn
    all_goals exact ⟨by decide, rfl⟩
  · decide

/-- Witness for C8 at the concrete name NAME_16QAM and its alias 16QAM. -/
theorem alias_table_canonical_roundtrip_witness :
    (((MODULATION_NAME_ALIAS.lookup ModulationName.NAME_16QAM).getD []) ≠ [] ∧
      getModulationString ModulationName.NAME_16QAM =
        ((MODULATION_NAME_ALIAS.lookup ModulationName.NAME_16QAM).getD []).headD "") ∧
    getModulationName "16QAM" = ModulationName.NAME_16QAM :=
  ⟨alias_table_canonical_roundtrip.1 ModulationName.NAME_16QAM (by decide),
   alias_table_canonical_roundtrip.2 (ModulationName.NAME_16QAM, ["16QAM", "QAM16"])
     (by decide) "16QAM" (by decide)⟩

/-- C9 counterexample: on a table in which NAME_UNKNOWN shares the alias z
with another name, verifyAliasNames still reports success, because the scan
skips the NAME_UNKNOWN row; so success is not equivalent to the property
that no alias string appears in more than one name's alias list. -/
theorem verifyAliasNames_not_iff_injective :
    ¬ (((verifyAliasNames
          [(.NAME_UNKNOWN, ["z"]), (.NAME_AM_SSB, ["z"])]).1 = true) ↔
        specAliasTableInjective
          [(.NAME_UNKNOWN, ["z"]), (.NAME_AM_SSB, ["z"])]) := by
  decide

/-- C9 amended: on a table headed by the NAME_UNKNOWN row (the shape of the
static table, where NAME_UNKNOWN is the smallest key), verifyAliasNames
succeeds iff every other row has a non-empty alias list and no alias is
shared between two distinct non-NAME_UNKNOWN rows; the NAME_UNKNOWN row
itself is never examined.  Moreover, when several duplicates exist, the
reported diagnostic is the last duplicate found in scan order, not the
first: on the demonstration table below the scan meets x first but
reports y. -/
theorem verifyAliasNames_characterization
    (u : List String) (rest : List (ModulationName × List String))
    (h : ∀ e ∈ rest, e.1 ≠ ModulationName.NAME_UNKNOWN) :
    ((verifyAliasNames ((ModulationName.NAME_UNKNOWN, u) :: rest)).1 = true ↔
      ((∀ e ∈ rest, e.2 ≠ []) ∧
        rest.Pairwise (fun p q => ∀ a ∈ p.2, a ∉ q.2))) ∧
    verifyAliasNames
      [(.NAME_UNKNOWN, [""]), (.NAME_AM_SSB, ["x", "y"]),
       (.NAME_FM, ["x"]), (.NAME_PM, ["y"])] = (false, "y") := by
  constructor
  · show (verifyScan ((ModulationName.NAME_UNKNOWN, u) :: rest) (true, "")).1 = true ↔ _
    rw [show verifyScan ((ModulationName.NAME_UNKNOWN, u) :: rest) (true, "") =
          verifyScan rest (true, "") from by rw [verifyScan, if_pos rfl]]
    rw [verifyScan_fst rest h]
    simp
  · decide

/-- Witness for C9's amended theorem at a concrete duplicate-free table. -/
theorem verifyAliasNames_characterization_witness :
    ((verifyAliasNames
        [(ModulationName.NAME_UNKNOWN, [""]),
         (ModulationName.NAME_AM_SSB, ["AM-SSB"]),
         (ModulationName.NAME_FM, ["FM"])]).1 = true ↔
      ((∀ e ∈ [(ModulationName.NAME_AM_SSB, ["AM-SSB"]),
               (ModulationName.NAME_FM, ["FM"])], e.2 ≠ []) ∧
        List.Pairwise (fun p q => ∀ a ∈ p.2, a ∉ q.2)
          [(ModulationName.NAME_AM_SSB, ["AM-SSB"]),
           (ModulationName.NAME_FM, ["FM"])])) ∧
    verifyAliasNames
      [(.NAME_UNKNOWN, [""]), (.NAME_AM_SSB, ["x", "y"]),
       (.NAME_FM, ["x"]), (.NAME_PM, ["y"])] = (false, "y") :=
  verifyAliasNames_characterization [""]
    [(ModulationName.NAME_AM_SSB, ["AM-SSB"]), (ModulationName.NAME_FM, ["FM"])]
    (by decide)

/-- Dataset::IQPoint; the two 32-bit floats are modeled as rationals. -/
structure IQPoint where
  i : ℚ
  q : ℚ
  deriving DecidableEq, Repr

/-- Dataset::SignalData: the frame vector plus the running maximum absolute
component value (maxVal). -/
structure SignalData where
  frameDataVec : List (List IQPoint)
  maxVal : ℚ
  deriving DecidableEq, Repr

/-- Dataset::DatasetSource. -/
inductive DatasetSource where
  | RADIOML_2016_10A
  | RADIOML_2018_01
  | HISARMOD_2019_1
  deriving DecidableEq, Repr

/-- Dataset::FRAME_LENGTH. -/
def FRAME_LENGTH : DatasetSource → Nat
  | .RADIOML_2016_10A => 128
  | .RADIOML_2018_01 => 1024
  | .HISARMOD_2019_1 => 1024

/-- Dataset::FRAMES_PER_MOD_SNR_NR. -/
def FRAMES_PER_MOD_SNR_NR : DatasetSource → Nat
  | .RADIOML_2016_10A => 1000
  | .RADIOML_2018_01 => 4096
  | .HISARMOD_2019_1 => 500

/-- Dataset::MODULATIONS_NR. -/
def MODULATIONS_NR : DatasetSource → Nat
  | .RADIOML_2016_10A => 11
  | .RADIOML_2018_01 => 24
  | .HISARMOD_2019_1 => 26

/-- Dataset::SNRS_NR. -/
def SNRS_NR : DatasetSource → Nat
  | .RADIOML_2016_10A => 20
  | .RADIOML_2018_01 => 26
  | .HISARMOD_2019_1 => 20

/-- AdiTrx::getSignalData.  The source copies the handed SignalData, then
stores frameDataVec.size() into the uint16_t field mFramesNr (hence the
reduction mod 65536) and frameDataVec.at(0).size() into the uint16_t field
mFrameLength; at(0) throws std::out_of_range on an empty vector, modeled
as none. -/
def getSignalData (sd : SignalData) : Option (SignalData × Nat × Nat) :=
  match sd.frameDataVec with
  | [] => none
  | f :: _ => some (sd, sd.frameDataVec.length % 65536, f.length % 65536)

/-- A SignalData with 65536 one-point frames, used to exhibit the uint16_t
narrowing in AdiTrx::getSignalData. -/
def sdBig : SignalData := ⟨List.replicate 65536 [⟨0, 0⟩], 0⟩

lemma sdBig_eq_cons :
    sdBig = ⟨[⟨0, 0⟩] :: List.replicate 65535 [⟨0, 0⟩], 0⟩ := by
  show SignalData.mk (List.replicate 65536 [⟨0, 0⟩]) 0 = _
  rw [show (65536 : Nat) = 65535 + 1 from rfl, List.replicate_succ]

lemma sdBig_cons_length :
    ([⟨0, 0⟩] :: List.replicate 65535 [(⟨0, 0⟩ : IQPoint)]).length = 65536 := by
  rw [List.length_cons, List.length_replicate]

lemma getSignalData_cons (f : List IQPoint) (rest : List (List IQPoint)) (m : ℚ) :
    getSignalData ⟨f :: rest, m⟩ =
      some (⟨f :: rest, m⟩, (f :: rest).length % 65536, f.length % 65536) := rfl

/-- C10 counterexample: on a SignalData with 65536 non-empty frames, the
cached frame count is 0, not frameDataVec.size() = 65536, because mFramesNr
is a uint16_t field; so the claim that every non-empty SignalData gets
frame_count = frameDataVec.size() cached fails at this input. -/
theorem getSignalData_uint16_narrowing :
    sdBig.frameDataVec ≠ [] ∧
    getSignalData sdBig = some (sdBig, 0, 1) ∧
    sdBig.frameDataVec.length = 65536 ∧ (0 : Nat) ≠ 65536 := by
  refine ⟨?_, ?_, ?_, by decide⟩
  · rw [sdBig_eq_cons]
    exact List.cons_ne_nil _ _
  · rw [sdBig_eq_cons, getSignalData_cons, sdBig_cons_length]
    norm_num
  · rw [sdBig_eq_cons]
    exact sdBig_cons_length

/-- C10 amended: load_signal has the unstated precondition that the handed
SignalData contains at least one frame.  For a non-empty frameDataVec it
caches the signal data together with frame_count = size mod 2^16 and
frame_length = frameDataVec[0].size mod 2^16 (uint16_t fields; equal to the
true sizes whenever these are below 65536, as they are for every supported
dataset); for an empty frameDataVec the access to element 0 fails
(out-of-range), so the operation is only safe under that precondition. -/
theorem getSignalData_spec (sd : SignalData) :
    (sd.frameDataVec = [] → getSignalData sd = none) ∧
    (∀ f rest, sd.frameDataVec = f :: rest →
      getSignalData sd = some (sd, sd.frameDataVec.length % 65536, f.length % 65536) ∧
      (sd.frameDataVec.length < 65536 →
        sd.frameDataVec.length % 65536 = sd.frameDataVec.length) ∧
      (f.length < 65536 → f.length % 65536 = f.length)) := by
  constructor
  · intro h
    unfold getSignalData
    rw [h]
  · intro f rest h
    refine ⟨?_, fun h2 => Nat.mod_eq_of_lt h2, fun h2 => Nat.mod_eq_of_lt h2⟩
    unfold getSignalData
    rw [h]

/-- Witness for C10's amended theorem on a one-frame SignalData. -/
theorem getSignalData_spec_witness :
    getSignalData ⟨[[⟨1, 2⟩]], 2⟩ =
      some (⟨[[⟨1, 2⟩]], 2⟩, 1 % 65536, 1 % 65536) :=
  ((getSignalData_spec ⟨[[⟨1, 2⟩]], 2⟩).2 [⟨1, 2⟩] [] rfl).1

/-- AdiTrx::IntegerRange. -/
structure IntegerRange where
  min : Int
  step : Int
  max : Int
  deriving DecidableEq, Repr

/-- Outcome of a setter call: the returned status, the cached parameter
value after the call, and whether an attribute write was attempted. -/
structure SetterResult where
  status : Bool
  cached : Int
  hwWriteAttempted : Bool
  deriving DecidableEq, Repr

/-- Common body of AdiTrxAd9361::setTxLoFrequency,
AdiTrxAdrv9009::setTxLoFrequency and AdiTrxAd9081::setTxLoFrequency (the
three are textually identical up to the attribute name written): the
argument is first checked against the cached range; only an in-range
argument reaches the attribute write, whose success hwWriteOk (the opaque
attribute bus) decides the returned status; the cached value is updated
only when the write succeeded. -/
def setTxLoFrequency (params : IntegerRange) (cached : Int) (hwWriteOk : Bool)
    (f : Int) : SetterResult :=
  if params.min ≤ f ∧ f ≤ params.max then
    if hwWriteOk then ⟨true, f, true⟩ else ⟨false, cached, true⟩
  else ⟨false, cached, false⟩

/-- AdiTrxAdrv9009::setTxSamplingFrequency: returns false unconditionally
(the rate is not writable on this variant); no write, cache untouched. -/
def adrv9009_setTxSamplingFrequency (cached : Int) (_f : Int) : SetterResult :=
  ⟨false, cached, false⟩

/-- The pinned sampling-frequency range cached by
AdiTrxAdrv9009::getTxSamplingFrequencyParams. -/
def ADRV9009_TX_SAMPLING_PARAMS : IntegerRange := ⟨122880000, 0, 122880000⟩

/-- C7 counterexample: AdiTrxAdrv9009::setTxSamplingFrequency
returns false on the argument 122880000 even though it lies inside the
cached declared range [122880000, 122880000]; so it is not the case that
every setter returns false iff its argument is out of range. -/
theorem setter_false_iff_out_of_range_counterexample :
    ¬ (((adrv9009_setTxSamplingFrequency 122880000 122880000).status = false) ↔
        (122880000 < ADRV9009_TX_SAMPLING_PARAMS.min ∨
         ADRV9009_TX_SAMPLING_PARAMS.max < 122880000)) := by
  decide

/-- C7 amended: for the range-validating setters (the setTxLoFrequency body
shared by all three variants): an out-of-range argument returns false with
no hardware write attempted and the cache unchanged; an in-range argument
whose attribute write succeeds returns true and updates the cache; the
returned status is false iff the argument is out of range or the hardware
write failed.  Unsupported setters (here ADRV9009 sampling frequency)
return false unconditionally with cache untouched. -/
theorem setter_range_validation (params : IntegerRange) (cached : Int)
    (hwWriteOk : Bool) (f : Int) :
    ((f < params.min ∨ params.max < f) →
      setTxLoFrequency params cached hwWriteOk f = ⟨false, cached, false⟩) ∧
    (params.min ≤ f → f ≤ params.max → hwWriteOk = true →
      setTxLoFrequency params cached hwWriteOk f = ⟨true, f, true⟩) ∧
    ((setTxLoFrequency params cached hwWriteOk f).status = false ↔
      (f < params.min ∨ params.max < f ∨ hwWriteOk = false)) ∧
    adrv9009_setTxSamplingFrequency cached f = ⟨false, cached, false⟩ := by
  unfold setTxLoFrequency adrv9009_setTxSamplingFrequency
  by_cases hin : params.min ≤ f ∧ f ≤ params.max
  · rw [if_pos hin]
    obtain ⟨h1, h2⟩ := hin
    refine ⟨fun hc => absurd hc (by omega), fun _ _ hw => ?_, ?_, rfl⟩
    · rw [hw, if_pos rfl]
    · cases hwWriteOk
      · rw [if_neg (by simp)]
        simp
      · rw [if_pos rfl]
        simp
        omega
  · rw [if_neg hin]
    have hor : f < params.min ∨ params.max < f := by
      rcases not_and_or.mp hin with h | h
      · exact Or.inl (by omega)
      · exact Or.inr (by omega)
    refine ⟨fun _ => rfl, fun hl hr _ => absurd ⟨hl, hr⟩ hin, ?_, rfl⟩
    constructor
    · intro _
      rcases hor with h | h
      · exact Or.inl h
      · exact Or.inr (Or.inl h)
    · intro _
      rfl

/-- Witness for C7's amended theorem: with the ADRV9009 LO range
[70 MHz, 6 GHz], the in-range argument 70000000 succeeds and updates the
cache, and the out-of-range argument 69999999 is rejected without touching
anything. -/
theorem setter_range_validation_witness :
    setTxLoFrequency ⟨70000000, 1, 6000000000⟩ 0 true 70000000 =
      ⟨true, 70000000, true⟩ ∧
    setTxLoFrequency ⟨70000000, 1, 6000000000⟩ 0 true 69999999 =
      ⟨false, 0, false⟩ :=
  ⟨(setter_range_validation ⟨70000000, 1, 6000000000⟩ 0 true 70000000).2.1
      (by decide) (by decide) rfl,
   (setter_range_validation ⟨70000000, 1, 6000000000⟩ 0 true 69999999).1
      (by decide)⟩

/-- The static_cast to int16_t applied to the scaled sample in the three
startTxStreaming bodies: C++ float-to-integer conversion truncates toward
zero.  The overflow theorem below shows the operand always fits int16 under
the loading invariant, so no wrap-around needs to be modeled. -/
def cast_i16 (x : ℚ) : Int := if 0 ≤ x then ⌊x⌋ else -⌊-x⌋

/-- The three device variant families of the transmit core. -/
inductive AdiVariant where
  | ad9361
  | adrv9009
  | ad9081
  deriving DecidableEq, Repr

/-- DAC bit width per variant (12-bit AD9361, 14-bit ADRV9009, 16-bit
AD9081), per the comments in the three startTxStreaming bodies. -/
def dacWidth : AdiVariant → Nat
  | .ad9361 => 12
  | .adrv9009 => 14
  | .ad9081 => 16

/-- The numerator of SCALE_RATIO in each startTxStreaming body: 2047.0,
8191.0 and 32767.0 respectively. -/
def scaleNumer : AdiVariant → ℚ
  | .ad9361 => 2047
  | .adrv9009 => 8191
  | .ad9081 => 32767

/-- The left-shift applied to the converted sample, as a multiplier:
shl 4 on AD9361, shl 2 on ADRV9009, none on AD9081. -/
def shiftFactor : AdiVariant → Int
  | .ad9361 => 16
  | .adrv9009 => 4
  | .ad9081 => 1

/-- Per-sample conversion in AdiTrxAd9361::startTxStreaming:
SCALE_RATIO = 2047.0 / maxVal, truncated product shifted left by 4. -/
def ad9361_convertSample (maxVal : ℚ) (pt : IQPoint) : Int × Int :=
  (cast_i16 (pt.i * (2047 / maxVal)) * 16, cast_i16 (pt.q * (2047 / maxVal)) * 16)

/-- Per-sample conversion in AdiTrxAdrv9009::startTxStreaming:
SCALE_RATIO = 8191.0 / maxVal, truncated product shifted left by 2. -/
def adrv9009_convertSample (maxVal : ℚ) (pt : IQPoint) : Int × Int :=
  (cast_i16 (pt.i * (8191 / maxVal)) * 4, cast_i16 (pt.q * (8191 / maxVal)) * 4)

/-- Per-sample conversion in AdiTrxAd9081::startTxStreaming:
SCALE_RATIO = 32767.0 / maxVal, no shift. -/
def ad9081_convertSample (maxVal : ℚ) (pt : IQPoint) : Int × Int :=
  (cast_i16 (pt.i * (32767 / maxVal)), cast_i16 (pt.q * (32767 / maxVal)))

/-- Dispatch over the three per-variant conversions. -/
def convertSample : AdiVariant → ℚ → IQPoint → Int × Int
  | .ad9361 => ad9361_convertSample
  | .adrv9009 => adrv9009_convertSample
  | .ad9081 => ad9081_convertSample

/-- The point read for buffer slot i in the startTxStreaming loops:
frame i / frameLength, point index i mod frameLength (the source computes
crtPoint as i itself when crtFrame is 0, which coincides with the mod).
The .at accesses would throw out of range; the defaults below stand for
that and are unreachable under the stated hypotheses. -/
def streamPointAt (sd : SignalData) (frameLength k : Nat) : IQPoint :=
  (sd.frameDataVec.getD (k / frameLength) []).getD (k % frameLength) ⟨0, 0⟩

/-- The buffer-filling loop shared (textually repeated) by the three
startTxStreaming bodies: the cyclic buffer has frameLength * framesNr
(I,Q) slots, slot i receiving the converted point of frame i / frameLength
at index crtPoint, where crtPoint is i when crtFrame is 0 and
i mod frameLength otherwise. -/
def startTxStreaming (v : AdiVariant) (sd : SignalData)
    (frameLength framesNr : Nat) : List (Int × Int) :=
  (List.range (frameLength * framesNr)).map (fun i =>
    let crtFrame := i / frameLength
    let crtPoint := if crtFrame = 0 then i else i % frameLength
    convertSample v sd.maxVal ((sd.frameDataVec.getD crtFrame []).getD crtPoint ⟨0, 0⟩))

lemma range_map_getD {α : Type} (n k : Nat) (f : Nat → α) (d : α) (hk : k < n) :
    ((List.range n).map f).getD k d = f k := by
  rw [List.getD_eq_getElem _ _ (by simpa using hk)]
  simp

lemma getD_default_or_mem {α : Type} (l : List α) (n : Nat) (d : α) :
    l.getD n d = d ∨ l.getD n d ∈ l := by
  by_cases h : n < l.length
  · right
    rw [List.getD_eq_getElem l d h]
    exact List.getElem_mem h
  · left
    exact List.getD_eq_default l d (le_of_not_lt h)

lemma abs_cast_i16_le (x : ℚ) (c : Int) (h : |x| ≤ (c : ℚ)) :
    |cast_i16 x| ≤ c := by
  unfold cast_i16
  rcases abs_le.mp h with ⟨hlo, hhi⟩
  split_ifs with h0
  · rw [abs_of_nonneg (Int.floor_nonneg.mpr h0)]
    have := Int.floor_le_floor hhi
    rwa [Int.floor_intCast] at this
  · push_neg at h0
    have hnn : (0 : ℚ) ≤ -x := by linarith
    have h1 : ⌊-x⌋ ≤ c := by
      have := Int.floor_le_floor (show -x ≤ (c : ℚ) by linarith)
      rwa [Int.floor_intCast] at this
    have h2 : 0 ≤ ⌊-x⌋ := Int.floor_nonneg.mpr hnn
    rw [abs_of_nonpos (by omega)]
    omega

lemma abs_mul_scale_le (a m c : ℚ) (hm : 0 < m) (hc : 0 ≤ c) (ha : |a| ≤ m) :
    |a * (c / m)| ≤ c := by
  rw [abs_mul, abs_of_nonneg (div_nonneg hc hm.le)]
  calc |a| * (c / m) ≤ m * (c / m) :=
        mul_le_mul_of_nonneg_right ha (div_nonneg hc hm.le)
    _ = c := by field_simp

/-- C1: for every variant (W = 12 for AD9361 with shift 4, W = 14 for
ADRV9009 with shift 2, W = 16 for AD9081 with shift 0) and every loaded
SignalData (all frames of length frameLength, positive maxVal bounding
all components), startTxStreaming fills all frameLength * framesNr buffer
slots, slot k holding cast_i16(component * SCALE) shifted left by 16 - W
with SCALE = (2^(W-1) - 1) / maxVal, and every converted value lies in
the int16 range [-32768, 32767]. -/
theorem startTxStreaming_conversion (v : AdiVariant) (sd : SignalData)
    (frameLength framesNr : Nat)
    (hpos : 0 < sd.maxVal)
    (hbound : ∀ f ∈ sd.frameDataVec, ∀ p ∈ f,
      |p.i| ≤ sd.maxVal ∧ |p.q| ≤ sd.maxVal) :
    (startTxStreaming v sd frameLength framesNr).length =
        frameLength * framesNr ∧
    scaleNumer v = 2 ^ (dacWidth v - 1) - 1 ∧
    shiftFactor v = 2 ^ (16 - dacWidth v) ∧
    ∀ k, k < frameLength * framesNr →
      (startTxStreaming v sd frameLength framesNr).getD k (0, 0) =
        (cast_i16 ((streamPointAt sd frameLength k).i *
            (scaleNumer v / sd.maxVal)) * shiftFactor v,
         cast_i16 ((streamPointAt sd frameLength k).q *
            (scaleNumer v / sd.maxVal)) * shiftFactor v) ∧
      -32768 ≤ ((startTxStreaming v sd frameLength framesNr).getD k (0, 0)).1 ∧
      ((startTxStreaming v sd frameLength framesNr).getD k (0, 0)).1 ≤ 32767 ∧
      -32768 ≤ ((startTxStreaming v sd frameLength framesNr).getD k (0, 0)).2 ∧
      ((startTxStreaming v sd frameLength framesNr).getD k (0, 0)).2 ≤ 32767 := by
  refine ⟨by simp [startTxStreaming],
    by cases v <;> norm_num [scaleNumer, dacWidth],
    by cases v <;> norm_num [shiftFactor, dacWidth], ?_⟩
  intro k hk
  have hL0 : 0 < frameLength := by
    rcases Nat.eq_zero_or_pos frameLength with h | h
    · rw [h, Nat.zero_mul] at hk
      omega
    · exact h
  have hgd : (startTxStreaming v sd frameLength framesNr).getD k (0, 0) =
      convertSample v sd.maxVal (streamPointAt sd frameLength k) := by
    unfold startTxStreaming
    rw [range_map_getD _ _ _ _ hk]
    have hif : (if k / frameLength = 0 then k else k % frameLength) =
        k % frameLength := by
      split_ifs with h
      · exact (Nat.mod_eq_of_lt ((Nat.div_eq_zero_iff hL0).mp h)).symm
      · rfl
    simp only [streamPointAt, hif]
  have hptb : |(streamPointAt sd frameLength k).i| ≤ sd.maxVal ∧
      |(streamPointAt sd frameLength k).q| ≤ sd.maxVal := by
    unfold streamPointAt
    rcases getD_default_or_mem sd.frameDataVec (k / frameLength) [] with hf | hf
    · rw [hf]
      simp [hpos.le]
    · rcases getD_default_or_mem
          (sd.frameDataVec.getD (k / frameLength) []) (k % frameLength)
          ⟨0, 0⟩ with hp | hp
      · rw [hp]
        simp [hpos.le]
      · exact hbound _ hf _ hp
  obtain ⟨hpi, hpq⟩ := hptb
  have key : ∀ (a cq : ℚ) (ci : Int), (ci : ℚ) = cq → 0 ≤ cq →
      |a| ≤ sd.maxVal → |cast_i16 (a * (cq / sd.maxVal))| ≤ ci := by
    intro a cq ci hcast hc ha
    apply abs_cast_i16_le
    rw [hcast]
    exact abs_mul_scale_le a sd.maxVal cq hpos hc ha
  cases v
  · have h1 := key _ 2047 2047 (by norm_num) (by norm_num) hpi
    have h2 := key _ 2047 2047 (by norm_num) (by norm_num) hpq
    rw [abs_le] at h1 h2
    rw [hgd]
    refine ⟨?_, ?_, ?_, ?_, ?_⟩
    · simp [convertSample, ad9361_convertSample, scaleNumer, shiftFactor]
    all_goals
      simp only [convertSample, ad9361_convertSample]
      omega
  · have h1 := key _ 8191 8191 (by norm_num) (by norm_num) hpi
    have h2 := key _ 8191 8191 (by norm_num) (by norm_num) hpq
    rw [abs_le] at h1 h2
    rw [hgd]
    refine ⟨?_, ?_, ?_, ?_, ?_⟩
    · simp [convertSample, adrv9009_convertSample, scaleNumer, shiftFactor]
    all_goals
      simp only [convertSample, adrv9009_convertSample]
      omega
  · have h1 := key _ 32767 32767 (by norm_num) (by norm_num) hpi
    have h2 := key _ 32767 32767 (by norm_num) (by norm_num) hpq
    rw [abs_le] at h1 h2
    rw [hgd]
    refine ⟨?_, ?_, ?_, ?_, ?_⟩
    · simp [convertSample, ad9081_convertSample, scaleNumer, shiftFactor]
    all_goals
      simp only [convertSample, ad9081_convertSample]
      omega

/-- Witness for C1: the 12-bit scaling scenario with maxVal = 1 and the
sample (0.5, -1.0), which converts to (1023 shl 4, -2047 shl 4) =
(16368, -32752), inside the int16 range. -/
theorem startTxStreaming_conversion_witness :
    startTxStreaming AdiVariant.ad9361 ⟨[[⟨1/2, -1⟩]], 1⟩ 1 1 =
      [(16368, -32752)] ∧
    (-32768 ≤ ((startTxStreaming AdiVariant.ad9361
        ⟨[[⟨1/2, -1⟩]], 1⟩ 1 1).getD 0 (0, 0)).1 ∧
     ((startTxStreaming AdiVariant.ad9361
        ⟨[[⟨1/2, -1⟩]], 1⟩ 1 1).getD 0 (0, 0)).1 ≤ 32767 ∧
     -32768 ≤ ((startTxStreaming AdiVariant.ad9361
        ⟨[[⟨1/2, -1⟩]], 1⟩ 1 1).getD 0 (0, 0)).2 ∧
     ((startTxStreaming AdiVariant.ad9361
        ⟨[[⟨1/2, -1⟩]], 1⟩ 1 1).getD 0 (0, 0)).2 ≤ 32767) :=
  ⟨by
    simp only [startTxStreaming, convertSample, ad9361_convertSample, cast_i16,
      show List.range (1 * 1) = [0] from rfl, List.map_cons, List.map_nil]
    norm_num,
   ((startTxStreaming_conversion AdiVariant.ad9361 ⟨[[⟨1/2, -1⟩]], 1⟩ 1 1
       (by norm_num)
       (by
         intro f hf p hp
         simp only [List.mem_singleton] at hf
         subst hf
         simp only [List.mem_singleton] at hp
         subst hp
         constructor <;> rw [abs_le] <;> constructor <;> norm_num)).2.2.2
     0 (by norm_num)).2⟩

/-- CsvParser::MODULATION_MAPPING as an association list.  Access is by key
(std::map::at), so the listing order is immaterial; the source grouping is
kept. -/
def CSV_MODULATION_MAPPING : List (Nat × ModulationName) := [
  (0, .NAME_BPSK), (10, .NAME_QPSK), (20, .NAME_8PSK),
  (30, .NAME_16PSK), (40, .NAME_32PSK), (50, .NAME_64PSK),
  (1, .NAME_4QAM), (11, .NAME_8QAM), (21, .NAME_16QAM), (31, .NAME_32QAM),
  (41, .NAME_64QAM), (51, .NAME_128QAM), (61, .NAME_256QAM),
  (2, .NAME_2FSK), (12, .NAME_4FSK), (22, .NAME_8FSK), (32, .NAME_16FSK),
  (3, .NAME_4PAM), (13, .NAME_8PAM), (23, .NAME_16PAM),
  (4, .NAME_AM_DSB), (14, .NAME_AM_DSB_SC), (24, .NAME_AM_USB),
  (34, .NAME_AM_LSB), (44, .NAME_FM), (54, .NAME_PM)]

/-- MODULATION_MAPPING.at(k); .at throws for an absent key, which never
happens because every call site passes a MODULATION_SERIES value, all of
which are present; the default stands for the unreachable throw. -/
def csvModulationAt (k : Nat) : ModulationName :=
  (CSV_MODULATION_MAPPING.lookup k).getD .NAME_UNKNOWN

/-- CsvParser::MODULATION_SERIES. -/
def MODULATION_SERIES : List Nat :=
  [4, 14, 44, 32, 2, 12, 22, 34, 23, 3,
   13, 54, 30, 0, 40, 10, 50, 20, 51, 21,
   61, 31, 1, 41, 11, 24]

/-- MODULATION_SERIES.at(k); .at throws for k >= 26, which never happens
because every call site passes (lineNr mod 13000) / 500 < 26. -/
def seriesAt (k : Nat) : Nat := MODULATION_SERIES.getD k 0

/-- NR_LINES_PER_SNR in CsvParser::parseDataset: 500 * 26 = 13000. -/
def NR_LINES_PER_SNR : Nat :=
  FRAMES_PER_MOD_SNR_NR .HISARMOD_2019_1 * MODULATIONS_NR .HISARMOD_2019_1

/-- The SNR assigned to text-tabular line n:
crtSnrDb = -20 + 2 * (crtLineNr / NR_LINES_PER_SNR). -/
def csvSnrDb (n : Nat) : Int := -20 + 2 * ((n / NR_LINES_PER_SNR : Nat) : Int)

/-- The modulation code assigned to text-tabular line n:
MODULATION_SERIES.at((crtLineNr mod NR_LINES_PER_SNR) / 500). -/
def csvModInt (n : Nat) : Nat :=
  seriesAt ((n % NR_LINES_PER_SNR) / FRAMES_PER_MOD_SNR_NR .HISARMOD_2019_1)

/-- The per-line maxVal update loop in CsvParser::parseDataset: for each
point, fabs of the I part and then of the Q part replace the running
maximum when larger. -/
def lineMaxFold (m0 : ℚ) (line : List IQPoint) : ℚ :=
  line.foldl (fun m p => max (max m |p.i|) |p.q|) m0

/-- std::map::insert: inserts only when the key is not yet present, never
overwriting.  The map is modeled as the association list of its entries;
iteration order of the C++ map is by key and is not observed by the
modeled claims. -/
def mapInsert (m : List ((ModulationName × Int) × SignalData))
    (k : ModulationName × Int) (v : SignalData) :
    List ((ModulationName × Int) × SignalData) :=
  if m.any (fun e => e.1 = k) then m else m ++ [(k, v)]

/-- The loop state of CsvParser::parseDataset.  oldModInt starts at
SIZE_MAX; signalData.maxVal is uninitialized in the source but is always
reset before its first read, because line 0 always starts a new
combination (its SNR, -20, differs from the initial oldSnrDb = -100);
it is initialized to 0 here. -/
structure CsvState where
  uniqueModVec : List ModulationName
  uniqueSnrVec : List Int
  mMap : List ((ModulationName × Int) × SignalData)
  signalData : SignalData
  oldSnrDb : Int
  oldModInt : Nat
  modSnrPair : ModulationName × Int
  crtLineNr : Nat
  parseFailed : Bool
  deriving DecidableEq, Repr

/-- The state at entry of the while loop of CsvParser::parseDataset. -/
def csvInit : CsvState :=
  { uniqueModVec := [], uniqueSnrVec := [], mMap := [],
    signalData := ⟨[], 0⟩, oldSnrDb := -100,
    oldModInt := 18446744073709551615,
    modSnrPair := (.NAME_UNKNOWN, 0), crtLineNr := 0, parseFailed := false }

/-- One iteration of the while loop of CsvParser::parseDataset over an
already tokenized line (the string-level tokenization is modeled
separately; see csvTokens and getPoint).  Mirrors, in order: the snr /
modulation assignment, the new-combination reset, the per-line maxVal
fold, the frame-length check (break on failure, before push_back and
before the line counter increment), the frame push, and the every-500th
line finalize-and-insert with its frame-count check. -/
def csvStepCore (s : CsvState) (line : List IQPoint) : CsvState :=
  let crtSnrDb : Int := csvSnrDb s.crtLineNr
  let crtModInt : Nat := csvModInt s.crtLineNr
  let modName := csvModulationAt crtModInt
  let s1 :=
    if crtSnrDb ≠ s.oldSnrDb ∨ crtModInt ≠ s.oldModInt then
      { s with uniqueModVec := s.uniqueModVec ++ [modName],
               uniqueSnrVec := s.uniqueSnrVec ++ [crtSnrDb],
               modSnrPair := (modName, crtSnrDb),
               signalData := ⟨[], 0⟩ }
    else s
  let sd : SignalData :=
    ⟨s1.signalData.frameDataVec, lineMaxFold s1.signalData.maxVal line⟩
  if line.length ≠ FRAME_LENGTH .HISARMOD_2019_1 then
    { s1 with signalData := sd, parseFailed := true }
  else
    let sd2 : SignalData := ⟨sd.frameDataVec ++ [line], sd.maxVal⟩
    if s.crtLineNr ≠ 0 ∧
        (s.crtLineNr + 1) % FRAMES_PER_MOD_SNR_NR .HISARMOD_2019_1 = 0 then
      if sd2.frameDataVec.length ≠ FRAMES_PER_MOD_SNR_NR .HISARMOD_2019_1 then
        { s1 with signalData := sd2, parseFailed := true }
      else
        { s1 with signalData := sd2,
                  mMap := mapInsert s1.mMap s1.modSnrPair sd2,
                  oldSnrDb := crtSnrDb, oldModInt := crtModInt,
                  crtLineNr := s.crtLineNr + 1 }
    else
      { s1 with signalData := sd2,
                oldSnrDb := crtSnrDb, oldModInt := crtModInt,
                crtLineNr := s.crtLineNr + 1 }

/-- One getline iteration; after a parse failure the C++ loop has been
left, so further lines leave the state unchanged. -/
def csvStep (s : CsvState) (line : List IQPoint) : CsvState :=
  if s.parseFailed then s else csvStepCore s line

/-- The while loop of CsvParser::parseDataset over the tokenized lines of
the input file. -/
def csvRun (lines : List (List IQPoint)) : CsvState :=
  lines.foldl csvStep csvInit

/-- Result of CsvParser::parseDataset: final loop state and mStatus. -/
structure CsvParseResult where
  state : CsvState
  status : Bool

/-- CsvParser::parseDataset: none models a file that could not be opened
(the loop never runs).  After the loop, removeDuplicates deduplicates and
sorts the unique-modulation and unique-SNR vectors and the parse fails
unless their cardinalities are exactly MODULATIONS_NR = 26 and
SNRS_NR = 20; only the cardinalities are observed here, which dedup
preserves. -/
def csvParse (input : Option (List (List IQPoint))) : CsvParseResult :=
  let s := match input with
    | none => csvInit
    | some lines => csvRun lines
  { state := s,
    status := !s.parseFailed &&
      (s.uniqueModVec.dedup.length == MODULATIONS_NR .HISARMOD_2019_1) &&
      (s.uniqueSnrVec.dedup.length == SNRS_NR .HISARMOD_2019_1) }

/-- Number of (modulation, SNR) combinations started after n lines. -/
def csvCombos (n : Nat) : Nat := (n + 499) / 500

/-- The modulation of combination block c (lines 500c .. 500c + 499). -/
def csvModName (c : Nat) : ModulationName := csvModulationAt (seriesAt (c % 26))

/-- The SNR of combination block c. -/
def csvComboSnr (c : Nat) : Int := -20 + 2 * ((c / 26 : Nat) : Int)

/-- The 500 input lines of combination block c. -/
def csvBlockFrames (lines : List (List IQPoint)) (c : Nat) :
    List (List IQPoint) := (lines.drop (500 * c)).take 500

/-- The maxVal accumulated over combination block c. -/
def csvBlockMax (lines : List (List IQPoint)) (c : Nat) : ℚ :=
  (csvBlockFrames lines c).foldl lineMaxFold 0

/-- Closed form of the parser loop state after n well-formed lines. -/
def csvStateFormula (lines : List (List IQPoint)) (n : Nat) : CsvState :=
  { uniqueModVec := (List.range (csvCombos n)).map csvModName,
    uniqueSnrVec := (List.range (csvCombos n)).map csvComboSnr,
    mMap := (List.range (n / 500)).map (fun c =>
      ((csvModName c, csvComboSnr c),
        ⟨csvBlockFrames lines c, csvBlockMax lines c⟩)),
    signalData := if n = 0 then ⟨[], 0⟩ else
      ⟨(lines.drop (500 * ((n - 1) / 500))).take (n - 500 * ((n - 1) / 500)),
        ((lines.drop (500 * ((n - 1) / 500))).take
          (n - 500 * ((n - 1) / 500))).foldl lineMaxFold 0⟩,
    oldSnrDb := if n = 0 then -100 else csvSnrDb (n - 1),
    oldModInt := if n = 0 then 18446744073709551615 else csvModInt (n - 1),
    modSnrPair := if n = 0 then (.NAME_UNKNOWN, 0) else
      (csvModName ((n - 1) / 500), csvComboSnr ((n - 1) / 500)),
    crtLineNr := n,
    parseFailed := false }

lemma csvSnrDb_def (n : Nat) :
    csvSnrDb n = -20 + 2 * ((n / 13000 : Nat) : Int) := rfl

lemma csvModInt_def (n : Nat) :
    csvModInt n = seriesAt ((n % 13000) / 500) := rfl

lemma csvSnrDb_combo (n : Nat) : csvSnrDb n = csvComboSnr (n / 500) := by
  rw [csvSnrDb_def]
  unfold csvComboSnr
  rw [Nat.div_div_eq_div_mul]

lemma csvModInt_combo (n : Nat) : csvModInt n = seriesAt ((n / 500) % 26) := by
  rw [csvModInt_def]
  rw [show (13000 : Nat) = 500 * 26 from rfl, Nat.mod_mul_right_div_self]

lemma series_ne_pred : ∀ m < 26, 1 ≤ m → seriesAt m ≠ seriesAt (m - 1) := by
  decide

lemma series_map_inj : ∀ a < 26, ∀ b < 26,
    csvModulationAt (seriesAt a) = csvModulationAt (seriesAt b) → a = b := by
  decide

lemma csvSame_within_block (n : Nat) (h1 : 1 ≤ n) (h2 : n % 500 ≠ 0) :
    csvSnrDb n = csvSnrDb (n - 1) ∧ csvModInt n = csvModInt (n - 1) := by
  constructor
  · rw [csvSnrDb_def, csvSnrDb_def]
    have : n / 13000 = (n - 1) / 13000 := by omega
    rw [this]
  · rw [csvModInt_def, csvModInt_def]
    have : (n % 13000) / 500 = ((n - 1) % 13000) / 500 := by omega
    rw [this]

lemma csvDiffer_at_block (n : Nat) (h1 : 1 ≤ n) (h2 : n % 500 = 0) :
    csvSnrDb n ≠ csvSnrDb (n - 1) ∨ csvModInt n ≠ csvModInt (n - 1) := by
  by_cases h13 : n % 13000 = 0
  · left
    rw [csvSnrDb_def, csvSnrDb_def]
    have : n / 13000 ≠ (n - 1) / 13000 := by omega
    intro heq
    omega
  · right
    rw [csvModInt_def, csvModInt_def]
    have hm1 : 1 ≤ (n % 13000) / 500 := by omega
    have hm2 : (n % 13000) / 500 ≤ 25 := by omega
    have hprev : ((n - 1) % 13000) / 500 = (n % 13000) / 500 - 1 := by omega
    rw [hprev]
    exact series_ne_pred _ (by omega) hm1

lemma csvKey_inj (c c2 : Nat) (hm : csvModName c = csvModName c2)
    (hs : csvComboSnr c = csvComboSnr c2) : c = c2 := by
  have hdiv : c / 26 = c2 / 26 := by
    unfold csvComboSnr at hs
    omega
  have hmod : c % 26 = c2 % 26 :=
    series_map_inj _ (Nat.mod_lt _ (by norm_num)) _ (Nat.mod_lt _ (by norm_num)) hm
  omega

lemma take_succ_concat {α : Type} (l : List α) (n : Nat) (h : n < l.length) :
    l.take (n + 1) = l.take n ++ [l.get ⟨n, h⟩] := by
  induction l generalizing n with
  | nil => simp at h
  | cons x xs ih =>
      cases n with
      | zero => simp
      | succ m =>
          simp only [List.take_succ_cons, List.get]
          rw [ih m (by simpa using h)]
          simp

lemma csvStepCore_new_noInsert (s : CsvState) (line : List IQPoint)
    (hC : csvSnrDb s.crtLineNr ≠ s.oldSnrDb ∨ csvModInt s.crtLineNr ≠ s.oldModInt)
    (hlen : line.length = 1024)
    (hIns : ¬(s.crtLineNr ≠ 0 ∧ (s.crtLineNr + 1) % 500 = 0)) :
    csvStepCore s line =
      { s with
        uniqueModVec := s.uniqueModVec ++ [csvModulationAt (csvModInt s.crtLineNr)],
        uniqueSnrVec := s.uniqueSnrVec ++ [csvSnrDb s.crtLineNr],
        modSnrPair := (csvModulationAt (csvModInt s.crtLineNr), csvSnrDb s.crtLineNr),
        signalData := ⟨[line], lineMaxFold 0 line⟩,
        oldSnrDb := csvSnrDb s.crtLineNr,
        oldModInt := csvModInt s.crtLineNr,
        crtLineNr := s.crtLineNr + 1 } := by
  simp only [csvStepCore]
  rw [show FRAMES_PER_MOD_SNR_NR DatasetSource.HISARMOD_2019_1 = 500 from rfl,
    show FRAME_LENGTH DatasetSource.HISARMOD_2019_1 = 1024 from rfl]
  rw [if_pos hC, if_neg (by rw [hlen]; exact fun h => h rfl), if_neg hIns]
  rfl

lemma csvStepCore_old_noInsert (s : CsvState) (line : List IQPoint)
    (hC : ¬(csvSnrDb s.crtLineNr ≠ s.oldSnrDb ∨ csvModInt s.crtLineNr ≠ s.oldModInt))
    (hlen : line.length = 1024)
    (hIns : ¬(s.crtLineNr ≠ 0 ∧ (s.crtLineNr + 1) % 500 = 0)) :
    csvStepCore s line =
      { s with
        signalData := ⟨s.signalData.frameDataVec ++ [line],
          lineMaxFold s.signalData.maxVal line⟩,
        oldSnrDb := csvSnrDb s.crtLineNr,
        oldModInt := csvModInt s.crtLineNr,
        crtLineNr := s.crtLineNr + 1 } := by
  simp only [csvStepCore]
  rw [show FRAMES_PER_MOD_SNR_NR DatasetSource.HISARMOD_2019_1 = 500 from rfl,
    show FRAME_LENGTH DatasetSource.HISARMOD_2019_1 = 1024 from rfl]
  rw [if_neg hC, if_neg (by rw [hlen]; exact fun h => h rfl), if_neg hIns]

lemma csvStepCore_old_insert (s : CsvState) (line : List IQPoint)
    (hC : ¬(csvSnrDb s.crtLineNr ≠ s.oldSnrDb ∨ csvModInt s.crtLineNr ≠ s.oldModInt))
    (hlen : line.length = 1024)
    (hIns : s.crtLineNr ≠ 0 ∧ (s.crtLineNr + 1) % 500 = 0)
    (hcount : s.signalData.frameDataVec.length + 1 = 500) :
    csvStepCore s line =
      { s with
        signalData := ⟨s.signalData.frameDataVec ++ [line],
          lineMaxFold s.signalData.maxVal line⟩,
        mMap := mapInsert s.mMap s.modSnrPair
          ⟨s.signalData.frameDataVec ++ [line],
            lineMaxFold s.signalData.maxVal line⟩,
        oldSnrDb := csvSnrDb s.crtLineNr,
        oldModInt := csvModInt s.crtLineNr,
        crtLineNr := s.crtLineNr + 1 } := by
  simp only [csvStepCore]
  rw [show FRAMES_PER_MOD_SNR_NR DatasetSource.HISARMOD_2019_1 = 500 from rfl,
    show FRAME_LENGTH DatasetSource.HISARMOD_2019_1 = 1024 from rfl]
  rw [if_neg hC, if_neg (by rw [hlen]; exact fun h => h rfl), if_pos hIns,
    if_neg (by
      show ¬(s.signalData.frameDataVec ++ [line]).length ≠ _
      rw [List.length_append, List.length_singleton]
      intro h
      exact h (by omega))]

lemma csvCombos_eq (n : Nat) (h : n % 500 = 0) : csvCombos n = n / 500 := by
  unfold csvCombos
  omega

lemma csvCombos_succ_new (n : Nat) (h : n % 500 = 0) :
    csvCombos (n + 1) = n / 500 + 1 := by
  unfold csvCombos
  omega

lemma csvCombos_succ_old (n : Nat) (h : n % 500 ≠ 0) :
    csvCombos (n + 1) = csvCombos n := by
  unfold csvCombos
  omega

lemma drop_take_one (lines : List (List IQPoint)) (n : Nat) (hn : n < lines.length) :
    (lines.drop n).take 1 = [lines.get ⟨n, hn⟩] := by
  have hlen : 0 < (lines.drop n).length := by
    rw [List.length_drop]
    omega
  have := take_succ_concat (lines.drop n) 0 hlen
  simp only [List.take_zero, List.nil_append] at this
  rw [this]
  congr 1
  simp [List.get_eq_getElem, List.getElem_drop]

lemma take_drop_concat (lines : List (List IQPoint)) (b n : Nat)
    (hb : b ≤ n) (hn : n < lines.length) :
    (lines.drop b).take (n - b) ++ [lines.get ⟨n, hn⟩] =
      (lines.drop b).take (n - b + 1) := by
  rw [take_succ_concat (lines.drop b) (n - b) (by rw [List.length_drop]; omega)]
  congr 2
  simp only [List.get_eq_getElem, List.getElem_drop]
  congr 1
  omega

lemma csvStep_formula (lines : List (List IQPoint))
    (hlen : ∀ l ∈ lines, l.length = 1024)
    (n : Nat) (hn : n < lines.length) :
    csvStepCore (csvStateFormula lines n) (lines.get ⟨n, hn⟩) =
      csvStateFormula lines (n + 1) := by
  have hline : (lines.get ⟨n, hn⟩).length = 1024 := hlen _ (List.get_mem lines n hn)
  rcases Nat.eq_zero_or_pos n with hz | hpos
  · -- line 0: always a new combination, never an insert line
    subst hz
    rw [csvStepCore_new_noInsert _ _ (by
        show csvSnrDb 0 ≠ (csvStateFormula lines 0).oldSnrDb ∨ _
        left
        show csvSnrDb 0 ≠ -100
        decide)
      hline (by
        show ¬((0 : Nat) ≠ 0 ∧ _)
        simp)]
    have ht : lines.take 1 = [lines.get ⟨0, hn⟩] := by
      have := take_succ_concat lines 0 hn
      simpa using this
    simp [csvStateFormula, csvCombos, List.range_succ, ht]
    exact ⟨rfl, rfl, rfl, rfl⟩
  · have hn0 : n ≠ 0 := by omega
    by_cases h500 : n % 500 = 0
    · -- first line of a block: new combination, no insert
      rw [csvStepCore_new_noInsert _ _ (by
          show csvSnrDb n ≠ (csvStateFormula lines n).oldSnrDb ∨
            csvModInt n ≠ (csvStateFormula lines n).oldModInt
          show csvSnrDb n ≠ (if n = 0 then -100 else csvSnrDb (n - 1)) ∨
            csvModInt n ≠ (if n = 0 then 18446744073709551615 else csvModInt (n - 1))
          rw [if_neg hn0, if_neg hn0]
          exact csvDiffer_at_block n hpos h500)
        hline (by
          show ¬(n ≠ 0 ∧ (n + 1) % 500 = 0)
          omega)]
      simp only [csvStateFormula, if_neg hn0, if_neg (by omega : ¬(n + 1 = 0))]
      simp only [CsvState.mk.injEq]
      refine ⟨?_, ?_, ?_, ?_, ?_, ?_, ?_, trivial, trivial⟩
      · rw [csvCombos_succ_new n h500, csvCombos_eq n h500, List.range_succ,
          List.map_append, csvModInt_combo]
        rfl
      · rw [csvCombos_succ_new n h500, csvCombos_eq n h500, List.range_succ,
          List.map_append, csvSnrDb_combo]
        rfl
      · rw [show (n + 1) / 500 = n / 500 from by omega]
      · rw [Nat.add_sub_cancel, show 500 * (n / 500) = n from by omega,
          show n + 1 - n = 1 from by omega, drop_take_one lines n hn]
        rfl
      · rw [Nat.add_sub_cancel]
      · rw [Nat.add_sub_cancel]
      · rw [Nat.add_sub_cancel, csvModInt_combo, csvSnrDb_combo]
        rfl
    · -- continuation line of a block
      have hsame := csvSame_within_block n hpos h500
      have hCond : ¬(csvSnrDb n ≠ (csvStateFormula lines n).oldSnrDb ∨
          csvModInt n ≠ (csvStateFormula lines n).oldModInt) := by
        show ¬(csvSnrDb n ≠ (if n = 0 then -100 else csvSnrDb (n - 1)) ∨
          csvModInt n ≠ (if n = 0 then 18446744073709551615 else csvModInt (n - 1)))
        rw [if_neg hn0, if_neg hn0]
        push_neg
        exact hsame
      have hb : (n - 1) / 500 = n / 500 := by omega
      by_cases hIns : (n + 1) % 500 = 0
      · -- 500th line of the block: finalize and insert
        rw [csvStepCore_old_insert _ _ hCond hline ⟨hn0, hIns⟩ (by
          show ((csvStateFormula lines n).signalData).frameDataVec.length + 1 = 500
          have hsd : ((csvStateFormula lines n).signalData).frameDataVec =
              (lines.drop (500 * ((n - 1) / 500))).take
                (n - 500 * ((n - 1) / 500)) := by
            simp only [csvStateFormula, if_neg hn0]
          rw [hsd, List.length_take, List.length_drop]
          have h499 : n % 500 = 499 := by omega
          omega)]
        simp only [csvStateFormula, if_neg hn0, if_neg (by omega : ¬(n + 1 = 0)),
          CsvState.mk.injEq]
        have hframes : (lines.drop (500 * (n / 500))).take
              (n - 500 * (n / 500)) ++ [lines.get ⟨n, hn⟩] =
            (lines.drop (500 * (n / 500))).take 500 := by
          have := take_drop_concat lines (500 * (n / 500)) n (by omega) hn
          rw [show n - 500 * (n / 500) + 1 = 500 from by omega] at this
          exact this
        refine ⟨?_, ?_, ?_, ?_, ?_, ?_, ?_, trivial, trivial⟩
        · rw [csvCombos_succ_old n h500]
        · rw [csvCombos_succ_old n h500]
        · rw [show (n + 1) / 500 = n / 500 + 1 from by omega, List.range_succ,
            List.map_append]
          unfold mapInsert
          rw [if_neg (by
            simp only [List.any_eq_true, List.mem_map, not_exists]
            rintro x ⟨⟨c2, hc2, rfl⟩, hx⟩
            simp only [List.mem_range] at hc2
            rw [hb] at hx
            simp only [decide_eq_true_eq, Prod.mk.injEq] at hx
            obtain ⟨h1, h2⟩ := hx
            have hceq := csvKey_inj c2 (n / 500) h1 h2
            omega)]
          rw [hb]
          congr 1
          simp only [List.map_cons, List.map_nil, List.cons.injEq, and_true,
            Prod.mk.injEq, SignalData.mk.injEq]
          refine ⟨trivial, ?_, ?_⟩
          · exact hframes
          · show lineMaxFold _ _ = csvBlockMax lines (n / 500)
            unfold csvBlockMax csvBlockFrames
            rw [← hframes, List.foldl_append]
            rfl
        · simp only [Nat.add_sub_cancel, SignalData.mk.injEq]
          rw [hb, show n + 1 - 500 * (n / 500) = 500 from by omega]
          exact ⟨hframes, by rw [← hframes, List.foldl_append]; rfl⟩
        · rw [Nat.add_sub_cancel]
        · rw [Nat.add_sub_cancel]
        · rw [Nat.add_sub_cancel, hb]
      · -- mid-block line
        rw [csvStepCore_old_noInsert _ _ hCond hline (by
          show ¬(n ≠ 0 ∧ (n + 1) % 500 = 0)
          omega)]
        simp only [csvStateFormula, if_neg hn0, if_neg (by omega : ¬(n + 1 = 0)),
          CsvState.mk.injEq]
        have hbeq : (n + 1 - 1) / 500 = (n - 1) / 500 := by omega
        have hframes : (lines.drop (500 * ((n - 1) / 500))).take
              (n - 500 * ((n - 1) / 500)) ++ [lines.get ⟨n, hn⟩] =
            (lines.drop (500 * ((n - 1) / 500))).take
              (n - 500 * ((n - 1) / 500) + 1) :=
          take_drop_concat lines (500 * ((n - 1) / 500)) n (by omega) hn
        refine ⟨?_, ?_, ?_, ?_, ?_, ?_, ?_, trivial, trivial⟩
        · rw [csvCombos_succ_old n h500]
        · rw [csvCombos_succ_old n h500]
        · rw [show (n + 1) / 500 = n / 500 from by omega]
        · simp only [SignalData.mk.injEq, hbeq]
          constructor
          · rw [show n + 1 - 500 * ((n - 1) / 500) =
                n - 500 * ((n - 1) / 500) + 1 from by omega]
            exact hframes
          · rw [show n + 1 - 500 * ((n - 1) / 500) =
                n - 500 * ((n - 1) / 500) + 1 from by omega, ← hframes,
              List.foldl_append]
            rfl
        · rw [Nat.add_sub_cancel]
        · rw [Nat.add_sub_cancel]
        · rw [Nat.add_sub_cancel, hb]

lemma csvRun_formula (lines : List (List IQPoint))
    (hlen : ∀ l ∈ lines, l.length = 1024) :
    ∀ n, n ≤ lines.length →
      (lines.take n).foldl csvStep csvInit = csvStateFormula lines n := by
  intro n
  induction n with
  | zero => intro _; rfl
  | succ m ih =>
      intro hm
      have hmlt : m < lines.length := by omega
      rw [take_succ_concat lines m hmlt, List.foldl_append, ih (by omega)]
      show csvStep (csvStateFormula lines m) (lines.get ⟨m, hmlt⟩) = _
      unfold csvStep
      rw [show (csvStateFormula lines m).parseFailed = false from rfl,
        if_neg Bool.false_ne_true]
      exact csvStep_formula lines hlen m hmlt

lemma uniqueMod_dedup_card :
    ((List.range 520).map csvModName).dedup.length = 26 := by decide

lemma uniqueSnr_dedup_card :
    ((List.range 520).map csvComboSnr).dedup.length = 20 := by decide

/-- C5: on a well-formed text-tabular input (260000 lines of 1024 points),
the parser never fails, inserts exactly one SignalData per 500 lines (520
entries), and the entry covering line n is keyed by
modulation = MODULATION_MAPPING[MODULATION_SERIES[(n mod 13000) / 500]] and
snr_dB = -20 + 2 * (n / 13000), holding exactly the 500 frames of its block
with their accumulated maxVal. -/
theorem csv_line_mapping (lines : List (List IQPoint))
    (h1 : lines.length = 260000)
    (h2 : ∀ l ∈ lines, l.length = 1024) :
    (csvRun lines).parseFailed = false ∧
    (csvRun lines).mMap.length = 520 ∧
    ∀ n, n < 260000 →
      ((csvModulationAt (seriesAt ((n % 13000) / 500)),
          -20 + 2 * ((n / 13000 : Nat) : Int)),
        (⟨(lines.drop (500 * (n / 500))).take 500,
          ((lines.drop (500 * (n / 500))).take 500).foldl lineMaxFold 0⟩ :
            SignalData)) ∈ (csvRun lines).mMap ∧
      ((lines.drop (500 * (n / 500))).take 500).length = 500 := by
  have hrun : csvRun lines = csvStateFormula lines 260000 := by
    have := csvRun_formula lines h2 lines.length le_rfl
    rw [List.take_length] at this
    rw [h1] at this
    exact this
  refine ⟨by rw [hrun]; rfl, ?_, ?_⟩
  · rw [hrun]
    show (List.map _ (List.range (260000 / 500))).length = 520
    rw [List.length_map, List.length_range]
  · intro n hn
    constructor
    · rw [hrun]
      show _ ∈ List.map _ (List.range (260000 / 500))
      rw [List.mem_map]
      refine ⟨n / 500, ?_, ?_⟩
      · rw [List.mem_range]
        omega
      · have hm : csvModName (n / 500) =
            csvModulationAt (seriesAt ((n % 13000) / 500)) := by
          show csvModulationAt (seriesAt ((n / 500) % 26)) = _
          rw [← csvModInt_def, csvModInt_combo]
        have hs : csvComboSnr (n / 500) =
            (-20 + 2 * ((n / 13000 : Nat) : Int)) := by
          rw [← csvSnrDb_combo, csvSnrDb_def]
        rw [hm, hs]
        rfl
    · rw [List.length_take, List.length_drop]
      omega

/-- All-zero, structurally well-formed text-tabular input: 260000 lines of
1024 points (0, 0). -/
def zeroCsvLines : List (List IQPoint) :=
  List.replicate 260000 (List.replicate 1024 ⟨0, 0⟩)

/-- Witness for C5 at the concrete all-zero well-formed input. -/
theorem csv_line_mapping_witness :
    (csvRun zeroCsvLines).parseFailed = false ∧
    (csvRun zeroCsvLines).mMap.length = 520 ∧
    ∀ n, n < 260000 →
      ((csvModulationAt (seriesAt ((n % 13000) / 500)),
          -20 + 2 * ((n / 13000 : Nat) : Int)),
        (⟨(zeroCsvLines.drop (500 * (n / 500))).take 500,
          ((zeroCsvLines.drop (500 * (n / 500))).take 500).foldl
            lineMaxFold 0⟩ : SignalData)) ∈ (csvRun zeroCsvLines).mMap ∧
      ((zeroCsvLines.drop (500 * (n / 500))).take 500).length = 500 :=
  csv_line_mapping zeroCsvLines (by rw [zeroCsvLines, List.length_replicate])
    (by
      intro l hl
      rw [zeroCsvLines] at hl
      rw [List.eq_of_mem_replicate hl, List.length_replicate])

/-- A single all-zero line folds the running max to 0. -/
lemma lineMaxFold_zero_point (k : Nat) :
    lineMaxFold 0 (List.replicate k (⟨0, 0⟩ : IQPoint)) = 0 := by
  induction k with
  | zero => rfl
  | succ k ih =>
    rw [List.replicate_succ]
    simp only [lineMaxFold, List.foldl_cons] at ih ⊢
    simp only [abs_zero, max_self]
    exact ih

/-- Folding lineMaxFold over any number of all-zero lines yields 0. -/
lemma foldl_lineMaxFold_zero_lines (k : Nat) :
    (List.replicate k (List.replicate 1024 (⟨0, 0⟩ : IQPoint))).foldl
      lineMaxFold 0 = 0 := by
  induction k with
  | zero => rfl
  | succ k ih =>
    rw [List.replicate_succ, List.foldl_cons, lineMaxFold_zero_point]
    exact ih

/-- Every combination block of the all-zero input accumulates maxVal 0. -/
lemma csvBlockMax_zero (c : Nat) : csvBlockMax zeroCsvLines c = 0 := by
  unfold csvBlockMax csvBlockFrames zeroCsvLines
  rw [List.drop_replicate, List.take_replicate]
  exact foldl_lineMaxFold_zero_lines _

/-- Projection lemmas for csvParse and csvStateFormula, stated at
abstract arguments so that the definitional unfolding never evaluates a
concrete fold. -/
lemma csvParse_status (lines : List (List IQPoint)) :
    (csvParse (some lines)).status =
      (!(csvRun lines).parseFailed &&
        ((csvRun lines).uniqueModVec.dedup.length == 26) &&
        ((csvRun lines).uniqueSnrVec.dedup.length == 20)) := rfl

lemma csvParse_state (lines : List (List IQPoint)) :
    (csvParse (some lines)).state = csvRun lines := rfl

lemma csvStateFormula_parseFailed (lines : List (List IQPoint)) (n : Nat) :
    (csvStateFormula lines n).parseFailed = false := rfl

lemma csvStateFormula_uniqueModVec (lines : List (List IQPoint)) (n : Nat) :
    (csvStateFormula lines n).uniqueModVec =
      (List.range (csvCombos n)).map csvModName := rfl

lemma csvStateFormula_uniqueSnrVec (lines : List (List IQPoint)) (n : Nat) :
    (csvStateFormula lines n).uniqueSnrVec =
      (List.range (csvCombos n)).map csvComboSnr := rfl

lemma csvStateFormula_mMap (lines : List (List IQPoint)) (n : Nat) :
    (csvStateFormula lines n).mMap =
      (List.range (n / 500)).map (fun c =>
        ((csvModName c, csvComboSnr c),
          (⟨csvBlockFrames lines c, csvBlockMax lines c⟩ :
            SignalData))) := rfl

/-- C2: deviation from the spec — for the all-zero, structurally
well-formed text-tabular input the parse SUCCEEDS (status true) and
publishes all 520 SignalData entries, every one of them with maxVal = 0;
no maxVal == 0 guard exists anywhere in CsvParser::parseDataset, so the
zero denominator is not rejected. -/
theorem csv_zero_maxval_published :
    (csvParse (some zeroCsvLines)).status = true ∧
    (csvParse (some zeroCsvLines)).state.mMap.length = 520 ∧
    ∀ e ∈ (csvParse (some zeroCsvLines)).state.mMap, e.2.maxVal = 0 := by
  have h2 : ∀ l ∈ zeroCsvLines, l.length = 1024 := by
    intro l hl
    rw [zeroCsvLines] at hl
    rw [List.eq_of_mem_replicate hl, List.length_replicate]
  have hrun : csvRun zeroCsvLines = csvStateFormula zeroCsvLines 260000 := by
    have h := csvRun_formula zeroCsvLines h2 zeroCsvLines.length le_rfl
    rw [List.take_length] at h
    rw [show zeroCsvLines.length = 260000 from by
      rw [zeroCsvLines, List.length_replicate]] at h
    exact h
  refine ⟨?_, ?_, ?_⟩
  · rw [csvParse_status, hrun, csvStateFormula_parseFailed,
      csvStateFormula_uniqueModVec, csvStateFormula_uniqueSnrVec,
      show csvCombos 260000 = 520 from rfl,
      uniqueMod_dedup_card, uniqueSnr_dedup_card]
    rfl
  · rw [csvParse_state, hrun, csvStateFormula_mMap, List.length_map,
      List.length_range]
  · intro e he
    rw [csvParse_state, hrun, csvStateFormula_mMap, List.mem_map] at he
    obtain ⟨c, _, hc⟩ := he
    rw [← hc]
    exact csvBlockMax_zero c

/-- Presenter state fields touched by RadioModTx::handleDatasetParseFinished
for the text-tabular dataset type: the Dataset Store map, the parser
status it receives through getMap, and the status-bar message. -/
structure PresenterState where
  mMap : List ((ModulationName × Int) × SignalData)
  mParserStatus : Bool
  statusMessage : String

/-- RadioModTx::handleDatasetParseFinished, HISARMOD branch.  The switch
assigns mMap = mCsvParser->getMap(mParserStatus) with no condition on the
status; getMap copies the parser's member map and writes mStatus into the
out-parameter.  The previous store contents (prev) are overwritten in
every case.  The status bar then shows "Parsing done." or
"Parsing failed." according to mParserStatus. -/
def handleDatasetParseFinished
    (_prev : List ((ModulationName × Int) × SignalData))
    (r : CsvParseResult) : PresenterState :=
  { mMap := r.state.mMap,
    mParserStatus := r.status,
    statusMessage := if r.status then "Parsing done." else "Parsing failed." }

/-- Counterexample to C3 as stated: a failed parse does NOT leave the
previous store untouched.  With a non-empty previous store and an empty
input file (the parse fails: no modulations were seen), the store after
the completion notification is the failed run's empty parser map, not the
previous contents. -/
theorem store_changed_on_failed_parse :
    (csvParse (some [])).status = false ∧
    (handleDatasetParseFinished
        [((ModulationName.NAME_BPSK, -20), (⟨[], 1⟩ : SignalData))]
        (csvParse (some []))).mMap ≠
      [((ModulationName.NAME_BPSK, -20), (⟨[], 1⟩ : SignalData))] := by
  refine ⟨rfl, ?_⟩
  intro h
  simp [handleDatasetParseFinished, csvParse, csvRun, csvInit] at h

/-- C3 (amended): the completion handler copies the parser's map into the
store unconditionally — the store visible after the notification is
exactly this run's parser map, whatever the store held before; the status
line reads "Parsing failed." exactly when the run's status is false.  The
original claim (a failed parse leaves the previous store untouched) is
refuted by the counterexample above. -/
theorem handleDatasetParseFinished_overwrites
    (prev : List ((ModulationName × Int) × SignalData))
    (r : CsvParseResult) :
    (handleDatasetParseFinished prev r).mMap = r.state.mMap ∧
    (handleDatasetParseFinished prev r).mParserStatus = r.status ∧
    (handleDatasetParseFinished prev r).statusMessage =
      (if r.status then "Parsing done." else "Parsing failed.") :=
  ⟨rfl, rfl, rfl⟩

/-- Number of elements of an HDF5 dataset: the product of its dimensions
(Hdf5Parser::loadTreeItem, nrOfElements accumulation loop). -/
def hdf5NrOfElements (dims : List Nat) : Nat :=
  dims.foldl (fun a d => a * d) 1

/-- TOTAL_BYTES in Hdf5Parser::loadTreeItem: datatype size times the
number of elements — the malloc request for the WHOLE dataset. -/
def hdf5AllocBytes (datatypeSize : Nat) (dims : List Nat) : Nat :=
  datatypeSize * hdf5NrOfElements dims

/-- NR_ELEMENTS_PER_MOD for the hierarchical 2018 cube
(2555904 x 1024 x 2 floats): 5234491392 / 24 = 218103808. -/
def NR_ELEMENTS_PER_MOD : Nat :=
  hdf5NrOfElements [2555904, 1024, 2] / MODULATIONS_NR .RADIOML_2018_01

/-- NR_ELEMENTS_PER_FRAME = 2 * 1024. -/
def NR_ELEMENTS_PER_FRAME : Nat := 2 * FRAME_LENGTH .RADIOML_2018_01

/-- NR_ELEMENTS_PER_MOD_SNR = 218103808 / 26 = 8388608. -/
def NR_ELEMENTS_PER_MOD_SNR : Nat :=
  NR_ELEMENTS_PER_MOD / SNRS_NR .RADIOML_2018_01

/-- Frames converted for one modulation slab: 218103808 / 2048 = 106496.
The conversion for-loop advances by one frame per outer iteration
(the inner loop consumes NR_ELEMENTS_PER_FRAME elements and resets i). -/
def HDF5_FRAMES_PER_MOD : Nat := NR_ELEMENTS_PER_MOD / NR_ELEMENTS_PER_FRAME

/-- Loop state of the conversion section of Hdf5Parser::loadTreeItem. -/
structure Hdf5State where
  uniqueModVec : List ModulationName
  uniqueSnrVec : List Int
  mMap : List ((ModulationName × Int) × SignalData)
  signalData : SignalData
  oldSnrDb : Int
  modSnrPair : ModulationName × Int
  status : Bool

/-- State before the conversion loop: mUniqueModVec holds the single
modulation, oldSnrDb = -100, status true. -/
def hdf5InitState (m : ModulationName) : Hdf5State :=
  { uniqueModVec := [m], uniqueSnrVec := [], mMap := [],
    signalData := ⟨[], 0⟩, oldSnrDb := -100,
    modSnrPair := (.NAME_UNKNOWN, 0), status := true }

/-- One outer iteration (one frame) of the conversion loop in
Hdf5Parser::loadTreeItem, at frame index f of the slab, reading the
float buffer buf.  In order: the SNR computation from the element index
i = modOffset * NR_ELEMENTS_PER_MOD + NR_ELEMENTS_PER_FRAME * f, the
new-SNR reset, the inner per-point loop (frame fill and running maxVal),
the frame-length check (break on failure, before push_back), the frame
push, and the end-of-(mod, snr) insert with its frame-count check.  A
break is modeled by status = false making every later step a no-op. -/
def hdf5FrameStep (m : ModulationName) (modOffset : Nat) (buf : Nat → ℚ)
    (s : Hdf5State) (f : Nat) : Hdf5State :=
  if s.status = false then s else
  let i := modOffset * NR_ELEMENTS_PER_MOD + NR_ELEMENTS_PER_FRAME * f
  let crtSnrDb : Int :=
    -20 + 2 * (((i % NR_ELEMENTS_PER_MOD) / NR_ELEMENTS_PER_MOD_SNR
      : Nat) : Int)
  let s1 := if crtSnrDb ≠ s.oldSnrDb then
      { s with
        uniqueSnrVec := s.uniqueSnrVec ++ [crtSnrDb],
        modSnrPair := (m, crtSnrDb),
        signalData := ⟨[], 0⟩ }
    else s
  let frameData := (List.range (FRAME_LENGTH .RADIOML_2018_01)).map
    (fun p => (⟨buf (i + 2 * p), buf (i + 2 * p + 1)⟩ : IQPoint))
  if FRAME_LENGTH .RADIOML_2018_01 ≠ frameData.length then
    { s1 with status := false }
  else
    let s2 := { s1 with signalData :=
        ⟨s1.signalData.frameDataVec ++ [frameData],
          lineMaxFold s1.signalData.maxVal frameData⟩ }
    let iEnd := i + NR_ELEMENTS_PER_FRAME - 2
    let s3 := if iEnd ≠ 0 ∧ (iEnd + 2) % NR_ELEMENTS_PER_MOD_SNR = 0 then
        (if FRAMES_PER_MOD_SNR_NR .RADIOML_2018_01 ≠
            s2.signalData.frameDataVec.length then
          { s2 with status := false }
        else
          { s2 with mMap := mapInsert s2.mMap s2.modSnrPair s2.signalData })
      else s2
    if s3.status = false then s3 else { s3 with oldSnrDb := crtSnrDb }

/-- The conversion section of Hdf5Parser::loadTreeItem: all frames of the
single-modulation slab, from the initial state. -/
def hdf5Run (m : ModulationName) (modOffset : Nat) (buf : Nat → ℚ) :
    Hdf5State :=
  (List.range HDF5_FRAMES_PER_MOD).foldl (hdf5FrameStep m modOffset buf)
    (hdf5InitState m)

/-- A frame step only reads buffer elements inside the slab
[modOffset * NR_ELEMENTS_PER_MOD, (modOffset + 1) * NR_ELEMENTS_PER_MOD). -/
lemma hdf5FrameStep_congr (m : ModulationName) (modOffset : Nat)
    (b1 b2 : Nat → ℚ) (f : Nat) (hf : f < HDF5_FRAMES_PER_MOD)
    (hb : ∀ e, modOffset * NR_ELEMENTS_PER_MOD ≤ e →
      e < (modOffset + 1) * NR_ELEMENTS_PER_MOD → b1 e = b2 e)
    (s : Hdf5State) :
    hdf5FrameStep m modOffset b1 s f = hdf5FrameStep m modOffset b2 s f := by
  have hN : NR_ELEMENTS_PER_MOD = 218103808 := rfl
  have hF : NR_ELEMENTS_PER_FRAME = 2048 := rfl
  have hfr : f < 106496 := by
    rw [show HDF5_FRAMES_PER_MOD = 106496 from rfl] at hf
    exact hf
  have hframe : (List.range (FRAME_LENGTH .RADIOML_2018_01)).map
      (fun p => (⟨b1 (modOffset * NR_ELEMENTS_PER_MOD +
          NR_ELEMENTS_PER_FRAME * f + 2 * p),
        b1 (modOffset * NR_ELEMENTS_PER_MOD +
          NR_ELEMENTS_PER_FRAME * f + 2 * p + 1)⟩ : IQPoint)) =
      (List.range (FRAME_LENGTH .RADIOML_2018_01)).map
      (fun p => (⟨b2 (modOffset * NR_ELEMENTS_PER_MOD +
          NR_ELEMENTS_PER_FRAME * f + 2 * p),
        b2 (modOffset * NR_ELEMENTS_PER_MOD +
          NR_ELEMENTS_PER_FRAME * f + 2 * p + 1)⟩ : IQPoint)) := by
    apply List.map_congr_left
    intro p hp
    rw [List.mem_range,
      show FRAME_LENGTH .RADIOML_2018_01 = 1024 from rfl] at hp
    have e1 := hb (modOffset * NR_ELEMENTS_PER_MOD +
        NR_ELEMENTS_PER_FRAME * f + 2 * p)
      (by rw [hN, hF]; omega) (by rw [hN, hF]; omega)
    have e2 := hb (modOffset * NR_ELEMENTS_PER_MOD +
        NR_ELEMENTS_PER_FRAME * f + 2 * p + 1)
      (by rw [hN, hF]; omega) (by rw [hN, hF]; omega)
    rw [e1, e2]
  simp only [hdf5FrameStep]
  rw [hframe]

/-- The whole conversion run only reads buffer elements inside the slab. -/
lemma hdf5Foldl_congr (m : ModulationName) (modOffset : Nat)
    (b1 b2 : Nat → ℚ)
    (hb : ∀ e, modOffset * NR_ELEMENTS_PER_MOD ≤ e →
      e < (modOffset + 1) * NR_ELEMENTS_PER_MOD → b1 e = b2 e) :
    ∀ l : List Nat, (∀ f ∈ l, f < HDF5_FRAMES_PER_MOD) → ∀ s : Hdf5State,
      l.foldl (hdf5FrameStep m modOffset b1) s =
        l.foldl (hdf5FrameStep m modOffset b2) s := by
  intro l
  induction l with
  | nil => intro _ s; rfl
  | cons a t ih =>
    intro hl s
    rw [List.foldl_cons, List.foldl_cons,
      hdf5FrameStep_congr m modOffset b1 b2 a
        (hl a (List.mem_cons_self a t)) hb s]
    exact ih (fun f hf => hl f (List.mem_cons_of_mem a hf)) _

/-- Counterexample to C4 as stated: Hdf5Parser::loadTreeItem does NOT
allocate one modulation slab.  TOTAL_BYTES is the datatype size times
the product of ALL dimensions of the 2555904 x 1024 x 2 float cube —
20937965568 bytes (about 19.5 GB) — and the single H5Dread uses H5S_ALL
for both memory and file space, reading the whole cube; one modulation
slab would be only 4 * NR_ELEMENTS_PER_MOD = 872415232 bytes. -/
theorem hdf5_allocates_whole_cube :
    hdf5AllocBytes 4 [2555904, 1024, 2] = 20937965568 ∧
    4 * NR_ELEMENTS_PER_MOD = 872415232 ∧
    hdf5AllocBytes 4 [2555904, 1024, 2] ≠ 4 * NR_ELEMENTS_PER_MOD := by
  refine ⟨rfl, rfl, ?_⟩
  decide

/-- C4 (amended): the single-modulation hierarchical parse allocates and
reads the WHOLE 19.5 GB cube (TOTAL_BYTES = 20937965568 for the
2555904 x 1024 x 2 float dataset), not an 800 MB slab; the conversion
loop, however, only READS the slab
[modOffset * NR_ELEMENTS_PER_MOD, (modOffset + 1) * NR_ELEMENTS_PER_MOD)
of the element buffer: two buffers that agree on the slab produce the
same parse result. -/
theorem hdf5_full_cube_alloc_slab_read (m : ModulationName)
    (modOffset : Nat) (b1 b2 : Nat → ℚ)
    (hb : ∀ e, modOffset * NR_ELEMENTS_PER_MOD ≤ e →
      e < (modOffset + 1) * NR_ELEMENTS_PER_MOD → b1 e = b2 e) :
    hdf5AllocBytes 4 [2555904, 1024, 2] = 20937965568 ∧
    hdf5Run m modOffset b1 = hdf5Run m modOffset b2 := by
  refine ⟨rfl, ?_⟩
  exact hdf5Foldl_congr m modOffset b1 b2 hb (List.range HDF5_FRAMES_PER_MOD)
    (fun f hf => List.mem_range.1 hf) (hdf5InitState m)

/-- Witness for C4 at a concrete instantiation: identical buffers agree
on the slab, so the two runs coincide. -/
theorem hdf5_full_cube_alloc_slab_read_witness :
    (∀ e, 0 * NR_ELEMENTS_PER_MOD ≤ e →
      e < (0 + 1) * NR_ELEMENTS_PER_MOD →
      (fun _ : Nat => (0 : ℚ)) e = (fun _ : Nat => (0 : ℚ)) e) ∧
    (hdf5AllocBytes 4 [2555904, 1024, 2] = 20937965568 ∧
      hdf5Run .NAME_UNKNOWN 0 (fun _ => 0) =
        hdf5Run .NAME_UNKNOWN 0 (fun _ => 0)) :=
  ⟨fun _ _ _ => rfl,
    hdf5_full_cube_alloc_slab_read .NAME_UNKNOWN 0 (fun _ => 0) (fun _ => 0)
      (fun _ _ _ => rfl)⟩

/-- Index of the first occurrence of a character in a list, if any
(helper for std::string::find on a one-character needle). -/
def findCharIdx : List Char → Char → Option Nat
  | [], _ => none
  | a :: t, c => if a = c then some 0 else (findCharIdx t c).map (fun k => k + 1)

/-- std::string::find(needle, pos) for a one-character needle: the first
index ≥ pos holding the character (none models std::string::npos). -/
def strFindFrom (s : List Char) (c : Char) (pos : Nat) : Option Nat :=
  (findCharIdx (s.drop pos) c).map (fun k => pos + k)

/-- Integer-part accumulation of ::atof: consume leading decimal digits,
returning the accumulated value and the unconsumed rest. -/
def atofDigits : List Char → Nat → Nat × List Char
  | [], acc => (acc, [])
  | c :: cs, acc =>
    if c.isDigit then atofDigits cs (10 * acc + (c.toNat - 48))
    else (acc, c :: cs)

/-- Fractional-part accumulation of ::atof: consume decimal digits after
the point, returning numerator and denominator (a power of ten). -/
def atofFracAux : List Char → Nat → Nat → Nat × Nat
  | [], num, den => (num, den)
  | c :: cs, num, den =>
    if c.isDigit then atofFracAux cs (10 * num + (c.toNat - 48)) (10 * den)
    else (num, den)

/-- ::atof on a sign-free decimal string: digits, optional point, digits;
conversion stops at the first character that fits neither. -/
def atofUnsigned (s : List Char) : ℚ :=
  match atofDigits s 0 with
  | (ip, rest) =>
    match rest with
    | '.' :: frest =>
      (match atofFracAux frest 0 1 with
       | (num, den) => (ip : ℚ) + (num : ℚ) / (den : ℚ))
    | _ => (ip : ℚ)

/-- ::atof restricted to the decimal grammar produced by the dataset
(optional leading sign, digits, optional point, digits; exponents and
leading whitespace never occur in the tokens handed to it). -/
def atof (s : List Char) : ℚ :=
  match s with
  | '-' :: rest => -(atofUnsigned rest)
  | '+' :: rest => atofUnsigned rest
  | _ => atofUnsigned s

/-- CsvParser::getPoint: find "+" from index 1, else "-" from index 1;
on success the prefix before the separator is the I part and the
substring from the separator with the final character dropped is the Q
part, both through ::atof; with no separator the point stays (0, 0). -/
def getPoint (s : List Char) : IQPoint :=
  match (match strFindFrom s '+' 1 with
         | some k => some k
         | none => strFindFrom s '-' 1) with
  | none => ⟨0, 0⟩
  | some sepSignIndex =>
    ⟨atof (s.take sepSignIndex),
      atof ((s.drop sepSignIndex).take (s.length - sepSignIndex - 1))⟩

/-- The comma-splitting loop of CsvParser::parseDataset: from position j,
find the next comma at an index ≥ j + 1; with a comma at k the token is
substr(j, k - j) and the loop resumes at k + 1; with none the token is
the remainder and the loop ends.  Fuel-based recursion (the source loop
advances j by at least 2 each iteration, so length + 1 steps suffice). -/
def csvTokensAux : Nat → List Char → Nat → List (List Char)
  | 0, _, _ => []
  | fuel + 1, s, j =>
    if j < s.length then
      match strFindFrom s ',' (j + 1) with
      | some k => ((s.drop j).take (k - j)) :: csvTokensAux fuel s (k + 1)
      | none => [(s.drop j).take (s.length - j)]
    else []

/-- All complex-number tokens of one text-tabular line. -/
def csvTokens (s : List Char) : List (List Char) :=
  csvTokensAux (s.length + 1) s 0

/-- One parsed text-tabular line: every token through getPoint. -/
def parseCsvLine (s : List Char) : List IQPoint :=
  (csvTokens s).map getPoint

/-- The first two tokens of the spec's example line. -/
def sampleCsvLine : List Char :=
  ['1', '.', '5', '+', '2', '.', '2', '5', 'i', ',',
   '-', '0', '.', '5', '-', '0', '.', '7', '5', 'i']

/-- A list with no occurrence of the character has no find index. -/
lemma findCharIdx_eq_none (l : List Char) (c : Char)
    (h : ∀ x ∈ l, x ≠ c) : findCharIdx l c = none := by
  induction l with
  | nil => rfl
  | cons a t ih =>
    have ha : a ≠ c := h a (List.mem_cons_self a t)
    rw [findCharIdx, if_neg ha,
      ih (fun x hx => h x (List.mem_cons_of_mem a hx))]
    rfl

/-- The find index of the first occurrence after a clean prefix. -/
lemma findCharIdx_append_cons (l1 l2 : List Char) (c : Char)
    (h : ∀ x ∈ l1, x ≠ c) :
    findCharIdx (l1 ++ c :: l2) c = some l1.length := by
  induction l1 with
  | nil => simp [findCharIdx]
  | cons a t ih =>
    have ha : a ≠ c := h a (List.mem_cons_self a t)
    rw [List.cons_append, findCharIdx, if_neg ha,
      ih (fun x hx => h x (List.mem_cons_of_mem a hx))]
    rfl

/-- C6: on a complex token realPart ++ sgn :: imagPart ++ "i" of the
decimal grammar (non-empty real part, separator sign at an index ≥ 1,
no further sign characters after index 0), CsvParser::getPoint splits at
the separator: the prefix is the I part and the rest with the trailing
character dropped — sign included — is the Q part, both through ::atof;
and the example line "1.5+2.25i,-0.5-0.75i" decodes to the points
(3/2, 9/4) and (-1/2, -3/4) with a running maxVal of 9/4. -/
theorem getPoint_split (realPart imagPart : List Char) (sgn : Char)
    (hr : realPart ≠ [])
    (hsgn : sgn = '+' ∨ sgn = '-')
    (hr1 : ∀ c ∈ realPart.drop 1, c ≠ '+' ∧ c ≠ '-')
    (hi : ∀ c ∈ imagPart, c ≠ '+' ∧ c ≠ '-') :
    getPoint (realPart ++ sgn :: (imagPart ++ ['i'])) =
      ⟨atof realPart, atof (sgn :: imagPart)⟩ ∧
    parseCsvLine sampleCsvLine = [⟨3/2, 9/4⟩, ⟨-1/2, -3/4⟩] ∧
    lineMaxFold 0 (parseCsvLine sampleCsvLine) = 9/4 := by
  have htok : csvTokens sampleCsvLine =
      [['1', '.', '5', '+', '2', '.', '2', '5', 'i'],
       ['-', '0', '.', '5', '-', '0', '.', '7', '5', 'i']] := by decide
  have hg1 : getPoint ['1', '.', '5', '+', '2', '.', '2', '5', 'i'] =
      ⟨atof ['1', '.', '5'], atof ['+', '2', '.', '2', '5']⟩ := rfl
  have hg2 : getPoint ['-', '0', '.', '5', '-', '0', '.', '7', '5', 'i'] =
      ⟨atof ['-', '0', '.', '5'], atof ['-', '0', '.', '7', '5']⟩ := rfl
  have ha1 : atof ['1', '.', '5'] =
      ((1 : Nat) : ℚ) + ((5 : Nat) : ℚ) / ((10 : Nat) : ℚ) := rfl
  have ha2 : atof ['+', '2', '.', '2', '5'] =
      ((2 : Nat) : ℚ) + ((25 : Nat) : ℚ) / ((100 : Nat) : ℚ) := rfl
  have ha3 : atof ['-', '0', '.', '5'] =
      -(((0 : Nat) : ℚ) + ((5 : Nat) : ℚ) / ((10 : Nat) : ℚ)) := rfl
  have ha4 : atof ['-', '0', '.', '7', '5'] =
      -(((0 : Nat) : ℚ) + ((75 : Nat) : ℚ) / ((100 : Nat) : ℚ)) := rfl
  have hline : parseCsvLine sampleCsvLine = [⟨3/2, 9/4⟩, ⟨-1/2, -3/4⟩] := by
    unfold parseCsvLine
    rw [htok, List.map_cons, List.map_cons, List.map_nil,
      hg1, hg2, ha1, ha2, ha3, ha4]
    norm_num
  have hmax : lineMaxFold 0 (parseCsvLine sampleCsvLine) = 9/4 := by
    rw [hline]
    unfold lineMaxFold
    rw [List.foldl_cons, List.foldl_cons, List.foldl_nil]
    norm_num [abs_of_nonneg, abs_of_nonpos, max_def]
  refine ⟨?_, hline, hmax⟩
  obtain ⟨r, rt, rfl⟩ : ∃ r rt, realPart = r :: rt := by
    cases realPart with
    | nil => exact absurd rfl hr
    | cons r rt => exact ⟨r, rt, rfl⟩
  have hrt : ∀ c ∈ rt, c ≠ '+' ∧ c ≠ '-' := by
    intro c hc
    exact hr1 c (by rw [List.drop_succ_cons, List.drop_zero]; exact hc)
  have htake : ((r :: rt) ++ sgn :: (imagPart ++ ['i'])).take
      (rt.length + 1) = r :: rt := by
    rw [show rt.length + 1 = (r :: rt).length from rfl]
    exact List.take_left (r :: rt) (sgn :: (imagPart ++ ['i']))
  have hdrop : ((r :: rt) ++ sgn :: (imagPart ++ ['i'])).drop
      (rt.length + 1) = sgn :: (imagPart ++ ['i']) := by
    rw [show rt.length + 1 = (r :: rt).length from rfl]
    exact List.drop_left (r :: rt) (sgn :: (imagPart ++ ['i']))
  have hlen : ((r :: rt) ++ sgn :: (imagPart ++ ['i'])).length -
      (rt.length + 1) - 1 = imagPart.length + 1 := by
    rw [List.length_append, List.length_cons, List.length_cons,
      List.length_append, show (['i'] : List Char).length = 1 from rfl]
    omega
  have htail : (sgn :: (imagPart ++ ['i'])).take (imagPart.length + 1) =
      sgn :: imagPart := by
    rw [List.take_succ_cons,
      show imagPart.length = imagPart.length from rfl,
      List.take_left imagPart ['i']]
  rcases hsgn with h | h
  · subst h
    have h1 : strFindFrom ((r :: rt) ++ '+' :: (imagPart ++ ['i'])) '+' 1 =
        some (rt.length + 1) := by
      unfold strFindFrom
      rw [List.cons_append, List.drop_succ_cons, List.drop_zero,
        findCharIdx_append_cons rt (imagPart ++ ['i']) '+'
          (fun x hx => (hrt x hx).1)]
      rw [Option.map_some']
      rw [Nat.add_comm]
    simp only [getPoint, h1]
    rw [htake, hdrop, hlen, htail]
  · subst h
    have h0 : strFindFrom ((r :: rt) ++ '-' :: (imagPart ++ ['i'])) '+' 1 =
        none := by
      unfold strFindFrom
      rw [List.cons_append, List.drop_succ_cons, List.drop_zero,
        findCharIdx_eq_none]
      · rfl
      · intro x hx
        rcases List.mem_append.1 hx with hx | hx
        · exact (hrt x hx).1
        · rcases List.mem_cons.1 hx with hx | hx
          · subst hx; decide
          · rcases List.mem_append.1 hx with hx | hx
            · exact (hi x hx).1
            · rw [List.mem_singleton.1 hx]; decide
    have h1 : strFindFrom ((r :: rt) ++ '-' :: (imagPart ++ ['i'])) '-' 1 =
        some (rt.length + 1) := by
      unfold strFindFrom
      rw [List.cons_append, List.drop_succ_cons, List.drop_zero,
        findCharIdx_append_cons rt (imagPart ++ ['i']) '-'
          (fun x hx => (hrt x hx).2)]
      rw [Option.map_some']
      rw [Nat.add_comm]
    simp only [getPoint, h0, h1]
    rw [htake, hdrop, hlen, htail]

/-- Witness for C6 at the concrete token "2+3i". -/
theorem getPoint_split_witness :
    (['2'] : List Char) ≠ [] ∧
    (('+' : Char) = '+' ∨ ('+' : Char) = '-') ∧
    (∀ c ∈ (['2'] : List Char).drop 1, c ≠ '+' ∧ c ≠ '-') ∧
    (∀ c ∈ (['3'] : List Char), c ≠ '+' ∧ c ≠ '-') ∧
    (getPoint (['2'] ++ '+' :: (['3'] ++ ['i'])) =
        ⟨atof ['2'], atof ('+' :: ['3'])⟩ ∧
      parseCsvLine sampleCsvLine = [⟨3/2, 9/4⟩, ⟨-1/2, -3/4⟩] ∧
      lineMaxFold 0 (parseCsvLine sampleCsvLine) = 9/4) :=
  ⟨by decide, Or.inl rfl, by decide, by decide,
    getPoint_split ['2'] ['3'] '+' (by decide) (Or.inl rfl) (by decide)
      (by decide)⟩
